import Mathlib

/-!
# CaseTrack KE — verification of the custody ledger and alert engine

Shallow embedding of the core of the CaseTrack KE file-tracking system
(src/database.js, src/movement-tracker.js, src/file-manager.js and the
alert engine in src/sample-data.js) together with proofs about it.

Modelling conventions:
* JavaScript timestamps (`Date.now()`, `new Date()`) are integers counting
  milliseconds; every operation that reads the clock takes an explicit
  `now : Int` argument standing for the single instant at which it runs.
* ISO date strings stored in records are represented directly by their
  millisecond timestamps (the string/Date round trip is order- and
  value-preserving).
* JavaScript `x || y` for strings (falsy means `undefined`/`null`/`""`) is
  embedded by `Option String` plus the `jsOrD` / `jsOrNone` / `strOrNone`
  helpers below.
* `Math.ceil(a / b)` and `Math.round(a / b)` on exact integer inputs are
  `ceilDiv` and `roundDiv` (exact rational rounding; the magnitudes involved
  are far below the range where IEEE doubles lose integer exactness).
* Fields that no modelled operation reads are omitted: an Alert's `alertId`
  and display `message`, the locale-formatted display strings of
  `getFileHistory`, and a Movement's `loggedBy` (which `logMovement`,
  database.js:137-146, silently drops from the stored record, so stored
  movements created through it never carry one).
* The backend API mirror calls (`APIClient.*`) only duplicate the local
  writes onto the server and never change the local result; they are not
  modelled.
-/

namespace CaseTrack

/-- Milliseconds per day, `1000 * 60 * 60 * 24`. -/
def msPerDay : Int := 86400000

/-- Milliseconds per hour, `1000 * 60 * 60`. -/
def msPerHour : Int := 3600000

/-- `Math.ceil(a / b)` for integers with `b > 0`. -/
def ceilDiv (a b : Int) : Int := -((-a).fdiv b)

/-- `Math.round(a / b)` for integers with `b > 0` (JS rounds half toward +inf,
i.e. `floor (a/b + 1/2)`). -/
def roundDiv (a b : Int) : Int := (2 * a + b).fdiv (2 * b)

/-- JS `s || null` for a string value: the empty string is falsy. -/
def strOrNone (s : String) : Option String := if s = "" then none else some s

/-- Truthiness of a possibly-absent string (`undefined`/`null`/`""` are falsy). -/
def jsTruthy (o : Option String) : Bool :=
  match o with
  | none => false
  | some s => s ≠ ""

/-- JS `o || d` for a possibly-absent string with a string default. -/
def jsOrD (o : Option String) (d : String) : String :=
  match o with
  | none => d
  | some s => if s = "" then d else s

/-- JS `o || null` for a possibly-absent string. -/
def jsOrNone (o : Option String) : Option String :=
  match o with
  | none => none
  | some s => strOrNone s

/-- A user record (src/server stores more columns; the core reads only these). -/
structure User where
  userId : String
  role : String
  active : Bool
deriving DecidableEq

/-- A physical case file. `regCustodian` records the registration-time
custodian (`fileData.currentCustodian` at `createFile`, database.js:66); it is
a write-once shadow kept in the model solely to state the ledger invariant —
no modelled operation ever changes it. `assignedAdvocates` and
`linkedDigitalFiles` are `Option` because the JS objects may lack the field
entirely, and the alert engine distinguishes a missing array from an empty
one via truthiness. -/
structure File where
  fileId : String
  status : String
  currentCustodian : String
  regCustodian : String
  assignedAdvocates : Option (List String)
  linkedDigitalFiles : Option (List String)
  dateClosed : Option Int := none
  updatedAt : Option Int := none
deriving DecidableEq

/-- A movement record, as built by `logMovement` (database.js:136-146). -/
structure Movement where
  movementId : String
  fileId : String
  fromCustodian : Option String
  toCustodian : String
  timestamp : Int
  purpose : String
  acknowledged : Bool
  acknowledgedAt : Option Int := none
  acknowledgedBy : Option String := none
  notes : String
deriving DecidableEq

/-- A deadline record (database.js:222-231). -/
structure Deadline where
  deadlineId : String
  fileId : String
  type : String
  dueDate : Int
  description : String
  status : String
deriving DecidableEq

/-- An alert record. `alertId` and the display `message` are opaque to every
modelled operation (the dedup key is (type, fileId, targetUserId) only) and
are omitted. -/
structure Alert where
  type : String
  severity : String
  fileId : Option String
  deadlineId : Option String
  targetUserId : Option String
  createdAt : Int
  read : Bool
  dismissed : Bool
deriving DecidableEq

/-- The local datastore (the `casetrack_*` localStorage keys) plus the
session singleton `CaseTrackAuth.currentUser`. -/
structure DBState where
  files : List File
  movements : List Movement
  deadlines : List Deadline
  alerts : List Alert
  users : List User
  currentUser : Option User
deriving DecidableEq

/-- The permission keys of the `CaseTrackAuth.PERMISSIONS` matrix. -/
inductive Perm where
  | registerFiles
  | logMovements
  | updateFileStatus
  | viewAssignedFiles
  | viewAllFiles
  | requestFiles
  | uploadDocuments
  | generateReports
  | viewAuditLogs
  | manageUsers
deriving DecidableEq

/-- The role/permission matrix (`CaseTrackAuth.PERMISSIONS`); an unknown role
string has no permissions (`PERMISSIONS[role]` is undefined). -/
def PERMISSIONS (role : String) (p : Perm) : Bool :=
  if role = "Clerk" then
    match p with
    | .registerFiles => true
    | .logMovements => true
    | .updateFileStatus => true
    | .viewAssignedFiles => true
    | .viewAllFiles => false
    | .requestFiles => true
    | .uploadDocuments => false
    | .generateReports => false
    | .viewAuditLogs => false
    | .manageUsers => false
  else if role = "Advocate" then
    match p with
    | .registerFiles => false
    | .logMovements => false
    | .updateFileStatus => false
    | .viewAssignedFiles => true
    | .viewAllFiles => false
    | .requestFiles => true
    | .uploadDocuments => true
    | .generateReports => false
    | .viewAuditLogs => false
    | .manageUsers => false
  else if role = "Partner" then
    true
  else
    false

/-- `CaseTrackAuth.hasPermission` — false when nobody is logged in. -/
def hasPermission (s : DBState) (p : Perm) : Bool :=
  match s.currentUser with
  | none => false
  | some u => PERMISSIONS u.role p

/-- `CaseTrackAuth.canViewFile`. -/
def canViewFile (s : DBState) (file : File) : Bool :=
  match s.currentUser with
  | none => false
  | some u =>
    if PERMISSIONS u.role .viewAllFiles then true
    else
      file.currentCustodian == u.userId ||
        (match file.assignedAdvocates with
         | some l => l.contains u.userId
         | none => false)

/-- `CaseTrackDB.MOVEMENT_PURPOSES` (database.js:319-331). -/
def MOVEMENT_PURPOSES : List String :=
  ["Drafting", "Filing", "Review", "Court Mention", "Court Hearing",
   "Client Meeting", "Partner Review", "Senior Review", "Storage/Archive",
   "Return to Custodian", "Other"]

/-- `CaseTrackDB.FILE_STATUSES` (database.js:362). -/
def FILE_STATUSES : List String := ["Active", "Dormant", "Closed"]

/-- `CaseTrackDB.getFile` — first file whose fileId matches, else null. -/
def getFile (s : DBState) (fid : String) : Option File :=
  s.files.find? (fun f => f.fileId == fid)

/-- `CaseTrackDB.getUser`. -/
def getUser (s : DBState) (uid : String) : Option User :=
  s.users.find? (fun u => u.userId == uid)

/-- `CaseTrackDB.getUsersByRole`. -/
def getUsersByRole (s : DBState) (role : String) : List User :=
  s.users.filter (fun u => u.role == role)

/-- Modelled from the spec: `CaseTrackDB.getMovement` is elided from
src/database.js (the "rest of the movement methods remain same" comment at
line 189); per spec §4.1/§7 it looks a Movement up by its `movementId`,
NotFound when absent. -/
def getMovement (s : DBState) (movementId : String) : Option Movement :=
  s.movements.find? (fun m => m.movementId == movementId)

/-- `CaseTrackDB.getFileMovements` (database.js:120-122) — a filter, no sort. -/
def getFileMovements (s : DBState) (fid : String) : List Movement :=
  s.movements.filter (fun m => m.fileId == fid)

/-- Replace the first element satisfying `p` by its image under `g` — the
`findIndex` + in-place assignment idiom of `updateFile` and
`acknowledgeMovement`. -/
def replaceFirst (p : α → Bool) (g : α → α) : List α → List α
  | [] => []
  | x :: xs => if p x then g x :: xs else x :: replaceFirst p g xs

/-- `CaseTrackDB.updateFile` (database.js:93-103) applied at a call site whose
merge object is embedded as the record update `upd`: the first file with the
given id is merged with the updates and stamped with `updatedAt`; returns the
updated file, or null (and no change) when the id is absent. -/
def updateFileWith (s : DBState) (fid : String) (upd : File → File) (now : Int) :
    Option File × DBState :=
  match getFile s fid with
  | none => (none, s)
  | some f =>
    let f2 : File := { upd f with updatedAt := some now }
    (some f2,
     { s with files := replaceFirst (fun g => g.fileId == fid) (fun _ => f2) s.files })

/-- The argument object passed to `logMovement`. -/
structure MovementData where
  fileId : String
  fromCustodian : Option String
  toCustodian : String
  purpose : Option String
  notes : String
deriving DecidableEq

/-- The movement record `logMovement` constructs (database.js:137-146). -/
def newMovement (now : Int) (d : MovementData) : Movement :=
  { movementId := "MV-" ++ toString now
    fileId := d.fileId
    fromCustodian := jsOrNone d.fromCustodian
    toCustodian := d.toCustodian
    timestamp := now
    purpose := jsOrD d.purpose "Movement"
    acknowledged := false
    acknowledgedAt := none
    acknowledgedBy := none
    notes := d.notes }

/-- `CaseTrackDB.logMovement` (database.js:136-166): builds the movement
record, appends it to the immutable log, then updates the file's
`currentCustodian` to the new custodian. -/
def logMovement (s : DBState) (now : Int) (d : MovementData) : Movement × DBState :=
  (newMovement now d,
   (updateFileWith { s with movements := s.movements ++ [newMovement now d] }
     d.fileId (fun f => { f with currentCustodian := d.toCustodian }) now).2)

/-- `MovementTracker.transferFile` (movement-tracker.js:11-43). -/
def transferFile (s : DBState) (now : Int) (fileId toCustodianId : String)
    (purpose : Option String) (notes : String) : Except String Movement × DBState :=
  match s.currentUser with
  | none => (.error "You must be logged in to log file movements", s)
  | some u =>
    if PERMISSIONS u.role .logMovements = false then
      (.error ("Your role (" ++ u.role ++ ") is not authorized to log file movements"), s)
    else
      match getFile s fileId with
      | none => (.error "File not found", s)
      | some file =>
        match getUser s toCustodianId with
        | none => (.error "Target custodian not found", s)
        | some _ =>
          if jsTruthy purpose && !(MOVEMENT_PURPOSES.contains (jsOrD purpose "")) then
            (.error "Invalid movement purpose", s)
          else
            let r := logMovement s now
              { fileId := fileId
                fromCustodian := some file.currentCustodian
                toCustodian := toCustodianId
                purpose := some (jsOrD purpose "Movement")
                notes := notes }
            (.ok r.1, r.2)

/-- `CaseTrackDB.acknowledgeMovement` (database.js:168-187): sets the
acknowledgment fields on the first movement with the given id; null (and no
change) when absent. -/
def acknowledgeMovement (s : DBState) (now : Int) (movementId : String)
    (userId : Option String) : Option Movement × DBState :=
  match s.movements.find? (fun m => m.movementId == movementId) with
  | none => (none, s)
  | some m =>
    let m2 : Movement :=
      { m with acknowledged := true, acknowledgedAt := some now, acknowledgedBy := userId }
    (some m2,
     { s with movements :=
        replaceFirst (fun mm => mm.movementId == movementId) (fun _ => m2) s.movements })

/-- `MovementTracker.acknowledgeReceipt` (movement-tracker.js:48-68). The
success payload is `Option Movement` because the code returns
`{ success: true, movement: updated }` with whatever `acknowledgeMovement`
returned. -/
def acknowledgeReceipt (s : DBState) (now : Int) (movementId : String) :
    Except String (Option Movement) × DBState :=
  match getMovement s movementId with
  | none => (.error "Movement record not found", s)
  | some movement =>
    let uid? := s.currentUser.map (fun u => u.userId)
    if uid? != some movement.toCustodian && !(hasPermission s .viewAllFiles) then
      (.error "Only the recipient can acknowledge this transfer", s)
    else
      let r := acknowledgeMovement s now movementId uid?
      (.ok r.1, r.2)

/-- An entry of `MovementTracker.getFileHistory` (movement-tracker.js:91-111):
the movement enriched with user lookups. `loggedByInfo` is always null for
log-created movements (see the header note) and the two locale-formatted
display strings are omitted. -/
structure HistoryEntry where
  movement : Movement
  fromUserInfo : Option User
  toUserInfo : Option User
deriving DecidableEq

/-- `MovementTracker.getFileHistory` (movement-tracker.js:91-111). -/
def getFileHistory (s : DBState) (fid : String) : List HistoryEntry :=
  match getFile s fid with
  | none => []
  | some file =>
    if !(canViewFile s file) then []
    else
      (getFileMovements s fid).map (fun m =>
        { movement := m
          fromUserInfo :=
            match m.fromCustodian with
            | none => none
            | some c => getUser s c
          toUserInfo := getUser s m.toCustodian })

/-- The merge object `changeStatus` hands to `updateFile`
(file-manager.js:65-68): the new status, plus `dateClosed` when closing. -/
def statusUpdate (newStatus : String) (now : Int) (f : File) : File :=
  if newStatus == "Closed" then { f with status := newStatus, dateClosed := some now }
  else { f with status := newStatus }

/-- A file record as the JS store can hold it on the `changeStatus` path:
`updateFile` spreads the merge object verbatim (database.js:98), copying a
`currentCustodian: undefined` own-property, so the field can end up as the JS
`undefined` (modelled `none`). Every other modelled operation writes a string
there; `File` is that well-formed sub-case, injected by `File.toJS`. -/
structure FileJS where
  fileId : String
  status : String
  currentCustodian : Option String
  regCustodian : String
  assignedAdvocates : Option (List String)
  linkedDigitalFiles : Option (List String)
  dateClosed : Option Int := none
  updatedAt : Option Int := none
deriving DecidableEq

/-- The injection of a well-formed file record into the JS-valued store. -/
def File.toJS (f : File) : FileJS :=
  { fileId := f.fileId, status := f.status,
    currentCustodian := some f.currentCustodian, regCustodian := f.regCustodian,
    assignedAdvocates := f.assignedAdvocates,
    linkedDigitalFiles := f.linkedDigitalFiles, dateClosed := f.dateClosed,
    updatedAt := f.updatedAt }

/-- A movement record as the JS log can hold it: `logMovement` copies
`movementData.toCustodian` verbatim (database.js:141), so the field can be the
JS `undefined` (modelled `none`). `Movement` is the well-formed sub-case,
injected by `Movement.toJS`. -/
structure MovementJS where
  movementId : String
  fileId : String
  fromCustodian : Option String
  toCustodian : Option String
  timestamp : Int
  purpose : String
  acknowledged : Bool
  acknowledgedAt : Option Int := none
  acknowledgedBy : Option String := none
  notes : String
deriving DecidableEq

/-- The injection of a well-formed movement record into the JS-valued log. -/
def Movement.toJS (m : Movement) : MovementJS :=
  { movementId := m.movementId, fileId := m.fileId,
    fromCustodian := m.fromCustodian, toCustodian := some m.toCustodian,
    timestamp := m.timestamp, purpose := m.purpose,
    acknowledged := m.acknowledged, acknowledgedAt := m.acknowledgedAt,
    acknowledgedBy := m.acknowledgedBy, notes := m.notes }

/-- The argument object `changeStatus` passes to `logMovement`
(file-manager.js:73-79): both custodian fields read `file.currentCustodian`
off an un-awaited Promise, hence may be `undefined` (`none`). -/
structure MovementDataJS where
  fileId : String
  fromCustodian : Option String
  toCustodian : Option String
  purpose : Option String
  notes : String
deriving DecidableEq

/-- The movement record `logMovement` (database.js:137-146) builds from such
an argument: `fromCustodian` gets `|| null`, while `toCustodian` is copied
verbatim — `undefined` stays `undefined`. -/
def newMovementJS (now : Int) (d : MovementDataJS) : MovementJS :=
  { movementId := "MV-" ++ toString now
    fileId := d.fileId
    fromCustodian := jsOrNone d.fromCustodian
    toCustodian := d.toCustodian
    timestamp := now
    purpose := jsOrD d.purpose "Movement"
    acknowledged := false
    acknowledgedAt := none
    acknowledgedBy := none
    notes := d.notes }

/-- `CaseTrackDB.updateFile` (database.js:93-103) acting on the JS-valued
store: the spread merge copies the update's own properties even when their
value is `undefined`. -/
def updateFileJS (files : List FileJS) (fid : String) (upd : FileJS → FileJS)
    (now : Int) : List FileJS :=
  match files.find? (fun f => f.fileId == fid) with
  | none => files
  | some f =>
    replaceFirst (fun g => g.fileId == fid)
      (fun _ => { upd f with updatedAt := some now }) files

/-- `CaseTrackDB.logMovement` (database.js:136-166) acting on the JS-valued
store: append the record, then update the file's `currentCustodian` to
`movementData.toCustodian` verbatim — `undefined` included. -/
def logMovementJS (files : List FileJS) (movements : List MovementJS)
    (now : Int) (d : MovementDataJS) : List FileJS × List MovementJS :=
  (updateFileJS files d.fileId (fun f => { f with currentCustodian := d.toCustodian }) now,
   movements ++ [newMovementJS now d])

/-- `FileManager.changeStatus` (file-manager.js:56-86). `CaseTrackDB.updateFile`
is `async` (database.js:93) and file-manager.js:70 calls it without `await`:
the store effect still runs synchronously (the body has no await), but the
bound `file` is a pending Promise. A Promise is truthy, so no file-null path
exists; `file.currentCustodian` on lines 75-76 is `undefined`; and
`logMovement` always runs, appending a movement with
`fromCustodian = undefined || null = null` and `toCustodian = undefined`, then
clobbering the file's `currentCustodian` to `undefined`. The success payload's
`file` field is that pending Promise, not a file record, and is omitted; the
result carries the JS-valued `files` and `movements` stores. -/
def changeStatus (s : DBState) (now : Int) (fileId newStatus notes : String) :
    Except String Unit × (List FileJS × List MovementJS) :=
  match s.currentUser with
  | none => (.error "You must be logged in to change file status",
             (s.files.map File.toJS, s.movements.map Movement.toJS))
  | some u =>
    if PERMISSIONS u.role .updateFileStatus = false then
      (.error ("Your role (" ++ u.role ++ ") is not authorized to change file status"),
       (s.files.map File.toJS, s.movements.map Movement.toJS))
    else if !(FILE_STATUSES.contains newStatus) then
      (.error "Invalid status", (s.files.map File.toJS, s.movements.map Movement.toJS))
    else
      (.ok (),
       logMovementJS
         ((updateFileWith s fileId (statusUpdate newStatus now) now).2.files.map File.toJS)
         (s.movements.map Movement.toJS) now
         { fileId := fileId
           fromCustodian := none
           toCustodian := none
           purpose := some ("Status Change: " ++ newStatus)
           notes := if notes = "" then "File status changed to " ++ newStatus
                    else notes })

/-- The custody-ledger invariant of spec §3/§8: every file reachable through
`getFile` carries as `currentCustodian` the `toCustodian` of the most recently
appended movement for its id, or its registration-time custodian when no
movement exists yet. -/
def lastFileMovement (movements : List Movement) (fid : String) : Option Movement :=
  (movements.filter (fun m => m.fileId == fid)).getLast?

/-- See `lastFileMovement`. Quantifying over the list entry together with the
`getFile` equation keeps the statement decidable while saying exactly
"the file one observes for this id". -/
def ledgerConsistent (s : DBState) : Prop :=
  ∀ f ∈ s.files, getFile s f.fileId = some f →
    f.currentCustodian =
      ((lastFileMovement s.movements f.fileId).map Movement.toCustodian).getD f.regCustodian

/-- Pointwise form of `ledgerConsistent`: the file observed under a given id
satisfies the custody invariant. -/
def ledgerConsistentAt (s : DBState) (fid : String) : Prop :=
  ∀ f, getFile s fid = some f →
    f.currentCustodian =
      ((lastFileMovement s.movements fid).map Movement.toCustodian).getD f.regCustodian

instance decLedgerConsistent (s : DBState) : Decidable (ledgerConsistent s) := by
  unfold ledgerConsistent
  infer_instance

/-- One `transferFile` call with its clock instant. -/
structure TransferCall where
  now : Int
  fileId : String
  toCustodianId : String
  purpose : Option String
  notes : String

/-- The state reached by a `transferFile` call (successful or not). -/
def applyTransfer (s : DBState) (c : TransferCall) : DBState :=
  (transferFile s c.now c.fileId c.toCustodianId c.purpose c.notes).2

/-- The data a scan pass hands to `createAlertIfNew`. -/
structure AlertReq where
  type : String
  severity : String
  fileId : Option String
  deadlineId : Option String
  targetUserId : Option String
deriving DecidableEq

/-- The alert record built from a request at creation time. -/
def mkAlert (now : Int) (r : AlertReq) : Alert :=
  { type := r.type
    severity := r.severity
    fileId := r.fileId
    deadlineId := r.deadlineId
    targetUserId := r.targetUserId
    createdAt := now
    read := false
    dismissed := false }

/-- Modelled from the spec: `CaseTrackDB.createAlert` is elided from
src/database.js (the "rest of the alert methods remain same" comment at line
266); per spec §3/§4.4 it appends a fresh Alert with `createdAt = now`,
`read = false`, `dismissed = false`. -/
def createAlert (now : Int) (alerts : List Alert) (r : AlertReq) : List Alert :=
  alerts ++ [mkAlert now r]

/-- The dedup predicate of `AlertEngine.createAlertIfNew`
(sample-data.js:726-737): same type, same fileId, same targetUserId, not
dismissed. (`getActiveAlerts` pre-filters dismissed alerts and sorts them;
neither affects existence of a match.) -/
def alertMatches (r : AlertReq) (a : Alert) : Bool :=
  a.type == r.type && a.fileId == r.fileId && a.targetUserId == r.targetUserId && !a.dismissed

/-- `AlertEngine.createAlertIfNew` (sample-data.js:726-737). -/
def createAlertIfNew (now : Int) (alerts : List Alert) (r : AlertReq) : List Alert :=
  if alerts.any (fun a => !a.dismissed && alertMatches r a) then alerts
  else createAlert now alerts r

/-- Sequentially feed a pass's requests through `createAlertIfNew`. -/
def runAttempts (now : Int) (alerts : List Alert) (rs : List AlertReq) : List Alert :=
  rs.foldl (createAlertIfNew now) alerts

/-- `AlertEngine.CONFIG.deadlineWarningDays` (sample-data.js:561). -/
def deadlineWarningDays : List Int := [7, 3, 1]

/-- `AlertEngine.CONFIG.overdueThresholdDays`. -/
def overdueThresholdDays : Int := 7

/-- `AlertEngine.CONFIG.escalationThresholdDays`. -/
def escalationThresholdDays : Int := 14

/-- `daysUntil` of the deadline pass: `Math.ceil((dueDate - now) / 86400000)`. -/
def daysUntil (now dueDate : Int) : Int := ceilDiv (dueDate - now) msPerDay

/-- `file.assignedAdvocates?.[0] || null`. -/
def firstAdvocate (f : File) : Option String :=
  match f.assignedAdvocates with
  | none => none
  | some l =>
    match l.head? with
    | none => none
    | some a => strOrNone a

/-- The requests `AlertEngine.checkDeadlineAlerts` (sample-data.js:583-643)
issues for one Pending deadline: nothing when the file is gone; on overdue, a
critical `deadline_overdue` plus a critical `escalation` per Partner; on an
exact warning-day match, a `deadline_upcoming` (severity by proximity) plus a
`file_location_warning` when the file sits away from its assigned advocates. -/
def deadlineReqsFor (files : List File) (users : List User) (now : Int)
    (d : Deadline) : List AlertReq :=
  match files.find? (fun f => f.fileId == d.fileId) with
  | none => []
  | some file =>
    let du := daysUntil now d.dueDate
    if du < 0 then
      { type := "deadline_overdue", severity := "critical", fileId := some d.fileId,
        deadlineId := some d.deadlineId, targetUserId := firstAdvocate file } ::
      (users.filter (fun u => u.role == "Partner")).map (fun p =>
        { type := "escalation", severity := "critical", fileId := some d.fileId,
          deadlineId := some d.deadlineId, targetUserId := some p.userId })
    else if deadlineWarningDays.contains du then
      ({ type := "deadline_upcoming",
         severity := if du == 1 then "critical" else if du ≤ 3 then "warning" else "info",
         fileId := some d.fileId, deadlineId := some d.deadlineId,
         targetUserId := firstAdvocate file } ::
       (match file.assignedAdvocates with
        | some l =>
          if !(l.contains file.currentCustodian) then
            [{ type := "file_location_warning", severity := "warning",
               fileId := some d.fileId, deadlineId := none,
               targetUserId := some file.currentCustodian }]
          else []
        | none => []))
    else []

/-- All requests of the deadline pass, in scan order. -/
def deadlineReqs (files : List File) (users : List User) (now : Int)
    (deadlines : List Deadline) : List AlertReq :=
  (deadlines.filter (fun d => d.status == "Pending")).flatMap
    (deadlineReqsFor files users now)

/-- One row of `CaseTrackDB.getBottleneckReport` (database.js:461-491). -/
structure BottleneckEntry where
  file : File
  currentCustodian : String
  lastMovement : Movement
  daysHeld : Int
  riskLevel : String
deriving DecidableEq

/-- The stable descending comparator `(a, b) => b.daysHeld - a.daysHeld`. -/
def byDaysHeldDesc (a b : BottleneckEntry) : Bool := decide (b.daysHeld ≤ a.daysHeld)

/-- Stable insertion into a le-sorted list: `x` goes after every `y` with
`le y x`, so among comparator-equal elements earlier ones stay first. -/
def stableInsert (le : α → α → Bool) (x : α) : List α → List α
  | [] => [x]
  | y :: ys => if le y x then y :: stableInsert le x ys else x :: y :: ys

/-- JS `Array.prototype.sort` with a comparator is a stable sort, and a
stable sort's output is uniquely determined by the comparator and the input
order; this structurally recursive stable insertion sort is therefore an
exact embedding (chosen over well-founded merge sort so that concrete
states evaluate by kernel reduction). -/
def stableSort (le : α → α → Bool) (l : List α) : List α :=
  l.foldl (fun acc x => stableInsert le x acc) []

/-- The comparator `(a, b) => b.timestamp - a.timestamp` (descending). -/
def byTimestampDesc (a b : Movement) : Bool := decide (b.timestamp ≤ a.timestamp)

/-- `movements.filter(...).sort((a, b) => b.timestamp - a.timestamp)[0]`. -/
def mostRecentMovement (movements : List Movement) (fid : String) : Option Movement :=
  (stableSort byTimestampDesc (movements.filter (fun m => m.fileId == fid))).head?

/-- The per-file body of `getBottleneckReport`: most recent movement by
timestamp, `daysHeld = round((now - lastMovement.timestamp) / 86400000)`,
row pushed only when `daysHeld >= thresholdDays`, with the three-tier
riskLevel of database.js:484. -/
def bottleneckRow (now thresholdDays : Int) (movements : List Movement)
    (file : File) : Option BottleneckEntry :=
  match mostRecentMovement movements file.fileId with
  | none => none
  | some lastMovement =>
    if thresholdDays ≤ roundDiv (now - lastMovement.timestamp) msPerDay then
      some
        { file := file
          currentCustodian := file.currentCustodian
          lastMovement := lastMovement
          daysHeld := roundDiv (now - lastMovement.timestamp) msPerDay
          riskLevel :=
            if 14 ≤ roundDiv (now - lastMovement.timestamp) msPerDay then "high"
            else if 7 ≤ roundDiv (now - lastMovement.timestamp) msPerDay then "medium"
            else "low" }
    else none

/-- `CaseTrackDB.getBottleneckReport` (database.js:461-491): rows for the
Active files, sorted descending by `daysHeld`. -/
def getBottleneckReport (files : List File) (movements : List Movement)
    (now thresholdDays : Int) : List BottleneckEntry :=
  stableSort byDaysHeldDesc
    ((files.filter (fun f => f.status == "Active")).filterMap
      (bottleneckRow now thresholdDays movements))

/-- The requests of `AlertEngine.checkOverdueFiles` (sample-data.js:648-676). -/
def overdueFileReqs (files : List File) (movements : List Movement)
    (users : List User) (now : Int) : List AlertReq :=
  (getBottleneckReport files movements now overdueThresholdDays).flatMap (fun item =>
    { type := "file_overdue_at_custodian",
      severity := if escalationThresholdDays ≤ item.daysHeld then "critical" else "warning",
      fileId := some item.file.fileId, deadlineId := none,
      targetUserId := some item.currentCustodian } ::
    (if escalationThresholdDays ≤ item.daysHeld then
      (users.filter (fun u => u.role == "Partner")).map (fun p =>
        { type := "escalation", severity := "critical",
          fileId := some item.file.fileId, deadlineId := none,
          targetUserId := some p.userId })
    else []))

/-- The requests of `AlertEngine.checkUnacknowledgedMovements`
(sample-data.js:681-702): unacknowledged movements at least 24h old whose
file still exists. -/
def unackReqs (files : List File) (movements : List Movement) (now : Int) :
    List AlertReq :=
  (movements.filter (fun m => !m.acknowledged)).filterMap (fun m =>
    if 24 * msPerHour ≤ now - m.timestamp then
      match files.find? (fun f => f.fileId == m.fileId) with
      | none => none
      | some _ =>
        some { type := "movement_unacknowledged", severity := "warning",
               fileId := some m.fileId, deadlineId := none,
               targetUserId := some m.toCustodian }
    else none)

/-- The requests of `AlertEngine.checkMissingDigitalLinks`
(sample-data.js:707-721): Active files with a missing or empty
`linkedDigitalFiles` array. -/
def digitalReqs (files : List File) : List AlertReq :=
  (files.filter (fun f => f.status == "Active")).filterMap (fun f =>
    if (match f.linkedDigitalFiles with
        | none => true
        | some l => l.isEmpty) then
      some { type := "missing_digital_link", severity := "info",
             fileId := some f.fileId, deadlineId := none,
             targetUserId := firstAdvocate f }
    else none)

/-- `AlertEngine.checkDeadlineAlerts` as a state transformer. -/
def checkDeadlineAlerts (s : DBState) (now : Int) : DBState :=
  { s with alerts := runAttempts now s.alerts (deadlineReqs s.files s.users now s.deadlines) }

/-- `AlertEngine.checkOverdueFiles` as a state transformer. -/
def checkOverdueFiles (s : DBState) (now : Int) : DBState :=
  { s with alerts := runAttempts now s.alerts (overdueFileReqs s.files s.movements s.users now) }

/-- `AlertEngine.checkUnacknowledgedMovements` as a state transformer. -/
def checkUnacknowledgedMovements (s : DBState) (now : Int) : DBState :=
  { s with alerts := runAttempts now s.alerts (unackReqs s.files s.movements now) }

/-- `AlertEngine.checkMissingDigitalLinks` as a state transformer. -/
def checkMissingDigitalLinks (s : DBState) (now : Int) : DBState :=
  { s with alerts := runAttempts now s.alerts (digitalReqs s.files) }

/-- `AlertEngine.runAlertCheck` (sample-data.js:569-578): the four passes in
source order. -/
def runAlertCheck (s : DBState) (now : Int) : DBState :=
  checkMissingDigitalLinks
    (checkUnacknowledgedMovements (checkOverdueFiles (checkDeadlineAlerts s now) now) now) now

/-- The dedup key of spec §3: (type, fileId, targetUserId). -/
def alertKey (a : Alert) : String × Option String × Option String :=
  (a.type, a.fileId, a.targetUserId)

/-- Spec §3 invariant: at most one active (non-dismissed) alert per dedup key. -/
def dedupOK (alerts : List Alert) : Prop :=
  alerts.Pairwise (fun a b => a.dismissed = false → b.dismissed = false → alertKey a ≠ alertKey b)

instance decDedupOK (alerts : List Alert) : Decidable (dedupOK alerts) := by
  unfold dedupOK
  infer_instance

/-! ## Concrete fixtures for witnesses and counterexamples -/

/-- A clerk (may log movements, may not view all files). -/
def uClerk : User := { userId := "U1", role := "Clerk", active := true }

/-- The advocate assigned to the sample file. -/
def uAdv : User := { userId := "U2", role := "Advocate", active := true }

/-- An unrelated advocate (no override, not a recipient). -/
def uAdv2 : User := { userId := "U4", role := "Advocate", active := true }

/-- A partner (holds the view-all override). -/
def uPartner : User := { userId := "U3", role := "Partner", active := true }

/-- The user table of the fixtures. -/
def allUsers : List User := [uClerk, uAdv, uAdv2, uPartner]

/-- A registered Active file in the clerk's custody. -/
def exFile : File :=
  { fileId := "CT-2026-0001", status := "Active", currentCustodian := "U1",
    regCustodian := "U1", assignedAdvocates := some ["U2"],
    linkedDigitalFiles := some ["D1"] }

/-- An unacknowledged movement of `exFile` to the advocate U2. -/
def exMove : Movement :=
  { movementId := "MV-100", fileId := "CT-2026-0001", fromCustodian := some "U1",
    toCustodian := "U2", timestamp := 100, purpose := "Filing",
    acknowledged := false, notes := "" }

/-- State for the acknowledgment claims: the stranger U4 is logged in. -/
def ackState : DBState :=
  { files := [{ exFile with currentCustodian := "U2" }], movements := [exMove],
    deadlines := [], alerts := [], users := allUsers, currentUser := some uAdv2 }

/-- An already-acknowledged movement of `exFile` to the advocate U2. -/
def c7Move : Movement :=
  { movementId := "MV-7", fileId := "CT-2026-0001", fromCustodian := some "U1",
    toCustodian := "U2", timestamp := 100, purpose := "Filing",
    acknowledged := true, acknowledgedAt := some 200, acknowledgedBy := some "U2",
    notes := "" }

/-- State for the re-acknowledgment claim: the recipient U2 is logged in and
the movement is already acknowledged. -/
def c7State : DBState :=
  { files := [{ exFile with currentCustodian := "U2" }], movements := [c7Move],
    deadlines := [], alerts := [], users := allUsers, currentUser := some uAdv }

/-- State for the transfer claims: the clerk is logged in, the file has no
movements yet. -/
def exState : DBState :=
  { files := [exFile], movements := [], deadlines := [], alerts := [],
    users := allUsers, currentUser := some uClerk }

/-- A movement of `exFile` logged at time 0 (for the bottleneck claims). -/
def c6Move : Movement :=
  { movementId := "MV-60", fileId := "CT-2026-0001", fromCustodian := some "U1",
    toCustodian := "U1", timestamp := 0, purpose := "Filing",
    acknowledged := true, notes := "" }

/-- The bottleneck row produced for `exFile` 19 days after `c6Move`. -/
def c6Entry : BottleneckEntry :=
  { file := exFile, currentCustodian := "U1", lastMovement := c6Move,
    daysHeld := 19, riskLevel := "high" }

/-- Newer movement of `exFile` (10 days after epoch). -/
def c8MoveA : Movement :=
  { movementId := "MV-81", fileId := "CT-2026-0001", fromCustodian := some "U1",
    toCustodian := "U2", timestamp := 864000000, purpose := "Review",
    acknowledged := true, notes := "" }

/-- Older movement of `exFile` (5 days after epoch). -/
def c8MoveB : Movement :=
  { movementId := "MV-82", fileId := "CT-2026-0001", fromCustodian := some "U2",
    toCustodian := "U1", timestamp := 432000000, purpose := "Filing",
    acknowledged := true, notes := "" }

/-- A store whose movement log is newest-first — exactly what
`syncWithBackend` leaves behind, because GET /api/movements returns
`ORDER BY timestamp DESC` (src/server/server.js:403) and `saveData` stores
the list verbatim. The partner is logged in, so the file is viewable. -/
def c8State : DBState :=
  { files := [exFile], movements := [c8MoveA, c8MoveB], deadlines := [],
    alerts := [], users := allUsers, currentUser := some uPartner }

/-- A Pending deadline of `exFile` due exactly 3 days after epoch. -/
def d3Deadline : Deadline :=
  { deadlineId := "DL-3", fileId := "CT-2026-0001", type := "Filing Deadline",
    dueDate := 259200000, description := "", status := "Pending" }

/-- A Pending deadline of `exFile` that is overdue at any positive time. -/
def overdueDeadline : Deadline :=
  { deadlineId := "DL-9", fileId := "CT-2026-0001", type := "Filing Deadline",
    dueDate := -100, description := "", status := "Pending" }

/-- State for the alert-engine claims: one file, one overdue deadline, no
alerts yet. -/
def c5State : DBState :=
  { files := [exFile], movements := [], deadlines := [overdueDeadline],
    alerts := [], users := allUsers, currentUser := none }

/-! ## Helper lemmas -/

theorem jsOrD_of_not_truthy {o : Option String} {d : String}
    (h : jsTruthy o = false) : jsOrD o d = d := by
  cases o with
  | none => rfl
  | some s =>
    simp [jsTruthy, decide_eq_false_iff_not] at h
    simp [jsOrD, h]

theorem find?_replaceFirst {α : Type} (p : α → Bool) (g : α → α) (l : List α)
    (x : α) (hx : l.find? p = some x) (hg : p (g x) = true) :
    (replaceFirst p g l).find? p = some (g x) := by
  induction l with
  | nil => simp at hx
  | cons a t ih =>
    by_cases hpa : p a
    · rw [List.find?_cons_of_pos _ hpa] at hx
      injection hx with hx
      subst hx
      rw [replaceFirst, if_pos hpa, List.find?_cons_of_pos _ hg]
    · rw [List.find?_cons_of_neg _ hpa] at hx
      rw [replaceFirst, if_neg hpa, List.find?_cons_of_neg _ hpa]
      exact ih hx

theorem role_transfer_msg_ne (r : String) :
    ("Your role (" ++ r ++ ") is not authorized to log file movements") ≠
      "Invalid movement purpose" := by
  intro h
  have hlen := congrArg String.length h
  rw [String.length_append, String.length_append] at hlen
  have h1 : "Your role (".length = 11 := rfl
  have h2 : ") is not authorized to log file movements".length = 41 := rfl
  have h3 : "Invalid movement purpose".length = 24 := rfl
  rw [h1, h2, h3] at hlen
  omega

/-! ## C9 — empty or omitted purpose is accepted and stored as "Movement" -/

/-- C9: for an authorized caller, an existing file and a known target user, a
`transferFile` with an empty or omitted purpose succeeds and the created
movement's purpose is the literal string "Movement", which is not a member of
`MOVEMENT_PURPOSES`; conversely the "Invalid movement purpose" failure occurs
only for a non-empty purpose outside `MOVEMENT_PURPOSES`. -/
theorem transfer_empty_purpose_accepted (s : DBState) (now : Int)
    (fid toId : String) (purpose : Option String) (notes : String)
    (u : User) (f : File) (tu : User)
    (hu : s.currentUser = some u)
    (hperm : PERMISSIONS u.role .logMovements = true)
    (hf : getFile s fid = some f)
    (htu : getUser s toId = some tu)
    (hp : jsTruthy purpose = false) :
    (∃ m, (transferFile s now fid toId purpose notes).1 = Except.ok m ∧
      m.purpose = "Movement") ∧
    MOVEMENT_PURPOSES.contains "Movement" = false ∧
    (∀ (s2 : DBState) (n2 : Int) (fid2 to2 : String) (p2 : Option String) (nt2 : String),
      (transferFile s2 n2 fid2 to2 p2 nt2).1 = Except.error "Invalid movement purpose" →
      ∃ p, p2 = some p ∧ p ≠ "" ∧ MOVEMENT_PURPOSES.contains p = false) := by
  have hres : (transferFile s now fid toId purpose notes).1 =
      Except.ok ((logMovement s now
        { fileId := fid, fromCustodian := some f.currentCustodian,
          toCustodian := toId, purpose := some (jsOrD purpose "Movement"),
          notes := notes }).1) := by
    simp only [transferFile, hu, hperm, hf, htu, hp, Bool.false_and, Bool.false_eq_true,
      if_false]
    simp
  refine ⟨⟨_, hres, ?_⟩, by decide, ?_⟩
  · show jsOrD (some (jsOrD purpose "Movement")) "Movement" = "Movement"
    rw [jsOrD_of_not_truthy hp]
    rfl
  · intro s2 n2 fid2 to2 p2 nt2
    unfold transferFile
    cases s2.currentUser with
    | none =>
      intro herr
      exact absurd (Except.error.inj herr) (by decide)
    | some u2 =>
      dsimp only
      by_cases hpm : PERMISSIONS u2.role .logMovements = false
      · rw [if_pos hpm]
        intro herr
        exact absurd (Except.error.inj herr) (role_transfer_msg_ne u2.role)
      · rw [if_neg hpm]
        cases getFile s2 fid2 with
        | none =>
          intro herr
          exact absurd (Except.error.inj herr) (by decide)
        | some f2 =>
          dsimp only
          cases getUser s2 to2 with
          | none =>
            intro herr
            exact absurd (Except.error.inj herr) (by decide)
          | some tu2 =>
            dsimp only
            by_cases hguard :
                (jsTruthy p2 && !(MOVEMENT_PURPOSES.contains (jsOrD p2 ""))) = true
            · intro _
              have := hguard
              rw [Bool.and_eq_true, Bool.not_eq_true'] at this
              obtain ⟨htru, hmem⟩ := this
              cases p2 with
              | none => simp [jsTruthy] at htru
              | some p =>
                have hpne : p ≠ "" := by
                  simpa [jsTruthy, decide_eq_true_eq] using htru
                refine ⟨p, rfl, hpne, ?_⟩
                simpa [jsOrD, hpne] using hmem
            · rw [if_neg hguard]
              intro herr
              exact absurd herr (by simp)

/-- Witness for C9 at a concrete input: the clerk transfers the sample file
to the advocate with an omitted purpose. -/
theorem transfer_empty_purpose_accepted_witness :
    exState.currentUser = some uClerk ∧
    PERMISSIONS uClerk.role .logMovements = true ∧
    getFile exState "CT-2026-0001" = some exFile ∧
    getUser exState "U2" = some uAdv ∧
    jsTruthy none = false ∧
    ((∃ m, (transferFile exState 1000 "CT-2026-0001" "U2" none "").1 = Except.ok m ∧
        m.purpose = "Movement") ∧
      MOVEMENT_PURPOSES.contains "Movement" = false ∧
      (∀ (s2 : DBState) (n2 : Int) (fid2 to2 : String) (p2 : Option String) (nt2 : String),
        (transferFile s2 n2 fid2 to2 p2 nt2).1 = Except.error "Invalid movement purpose" →
        ∃ p, p2 = some p ∧ p ≠ "" ∧ MOVEMENT_PURPOSES.contains p = false)) :=
  ⟨rfl, rfl, rfl, rfl, rfl,
    transfer_empty_purpose_accepted exState 1000 "CT-2026-0001" "U2" none "" uClerk exFile uAdv
      rfl rfl rfl rfl rfl⟩

/-! ## C4 — acknowledgment authorization -/

/-- C4: `acknowledgeReceipt` by a logged-in user who is neither the
movement's recipient (`toCustodian`) nor a holder of the view-all override
always fails with the Unauthorized error and leaves the state (hence the
movement's `acknowledged` flag) untouched; when it succeeds it sets
`acknowledged = true`, `acknowledgedAt` to the current time and
`acknowledgedBy` to the acting user's id. -/
theorem acknowledge_authorization (s : DBState) (now : Int) (mid : String)
    (m : Movement) (u : User)
    (hm : getMovement s mid = some m)
    (hu : s.currentUser = some u) :
    (u.userId ≠ m.toCustodian → hasPermission s .viewAllFiles = false →
      (acknowledgeReceipt s now mid).1 =
        Except.error "Only the recipient can acknowledge this transfer" ∧
      (acknowledgeReceipt s now mid).2 = s) ∧
    (∀ m2, (acknowledgeReceipt s now mid).1 = Except.ok (some m2) →
      m2.acknowledged = true ∧ m2.acknowledgedAt = some now ∧
      m2.acknowledgedBy = some u.userId ∧
      getMovement (acknowledgeReceipt s now mid).2 mid = some m2) := by
  have hfind : s.movements.find? (fun mm => mm.movementId == mid) = some m := hm
  have hpmov := List.find?_some hfind
  constructor
  · intro hne hperm
    have hcond : ((some u.userId != some m.toCustodian) &&
        !(hasPermission s .viewAllFiles)) = true := by
      simp [bne, beq_iff_eq, hne, hperm]
    constructor
    · simp only [acknowledgeReceipt, hm, hu, Option.map_some']
      rw [if_pos hcond]
    · simp only [acknowledgeReceipt, hm, hu, Option.map_some']
      rw [if_pos hcond]
  · intro m2 hsucc
    by_cases hcond : ((some u.userId != some m.toCustodian) &&
        !(hasPermission s .viewAllFiles)) = true
    · exfalso
      have herr : (acknowledgeReceipt s now mid).1 =
          Except.error "Only the recipient can acknowledge this transfer" := by
        simp only [acknowledgeReceipt, hm, hu, Option.map_some']
        rw [if_pos hcond]
      rw [herr] at hsucc
      simp at hsucc
    · have hres : (acknowledgeReceipt s now mid).1 =
          Except.ok (some { m with
            acknowledged := true
            acknowledgedAt := some now
            acknowledgedBy := some u.userId }) := by
        simp only [acknowledgeReceipt, hm, hu, Option.map_some']
        rw [if_neg hcond]
        simp only [acknowledgeMovement, hfind]
      rw [hres] at hsucc
      obtain rfl : ({ m with
          acknowledged := true
          acknowledgedAt := some now
          acknowledgedBy := some u.userId } : Movement) = m2 :=
        Option.some.inj (Except.ok.inj hsucc)
      refine ⟨rfl, rfl, rfl, ?_⟩
      have hstate : (acknowledgeReceipt s now mid).2.movements =
          (replaceFirst (fun mm => mm.movementId == mid)
              (fun _ => { m with
                acknowledged := true
                acknowledgedAt := some now
                acknowledgedBy := some u.userId }) s.movements) := by
        simp only [acknowledgeReceipt, hm, hu, Option.map_some']
        rw [if_neg hcond]
        simp only [acknowledgeMovement, hfind]
      show (acknowledgeReceipt s now mid).2.movements.find?
          (fun mm => mm.movementId == mid) = _
      rw [hstate]
      exact find?_replaceFirst _ _ _ m hfind hpmov

/-- Witness for C4 at a concrete input: the stranger U4 tries to acknowledge
a movement addressed to U2 and is rejected without a state change. -/
theorem acknowledge_authorization_witness :
    getMovement ackState "MV-100" = some exMove ∧
    ackState.currentUser = some uAdv2 ∧
    uAdv2.userId ≠ exMove.toCustodian ∧
    hasPermission ackState .viewAllFiles = false ∧
    (acknowledgeReceipt ackState 900 "MV-100").1 =
      Except.error "Only the recipient can acknowledge this transfer" ∧
    (acknowledgeReceipt ackState 900 "MV-100").2 = ackState :=
  ⟨rfl, rfl, by decide, rfl,
    ((acknowledge_authorization ackState 900 "MV-100" exMove uAdv2 rfl rfl).1
      (by decide) rfl).1,
    ((acknowledge_authorization ackState 900 "MV-100" exMove uAdv2 rfl rfl).1
      (by decide) rfl).2⟩

/-! ## C7 — re-acknowledgment is not rejected by the code -/

/-- C7 (the code evaluated at the failing input): the recipient U2
re-acknowledges the already-acknowledged movement `c7Move`; the call
succeeds — there is no InvalidState rejection anywhere in
`acknowledgeReceipt`/`acknowledgeMovement` — and silently overwrites
`acknowledgedAt` (200 becomes 5000) and `acknowledgedBy`, contradicting the
claimed rejection with unchanged fields. -/
theorem reacknowledge_not_rejected :
    (acknowledgeReceipt c7State 5000 "MV-7").1 =
      Except.ok (some { c7Move with
        acknowledged := true
        acknowledgedAt := some 5000
        acknowledgedBy := some "U2" }) ∧
    c7Move.acknowledged = true ∧ c7Move.acknowledgedAt = some 200 :=
  ⟨rfl, rfl, rfl⟩

/-! ## C1 — ledger consistency -/

theorem find?_replaceFirst_ne {α : Type} (p q : α → Bool) (g : α → α) (l : List α)
    (hpq : ∀ x, p x = true → q x = false)
    (hg : ∀ x, p x = true → q (g x) = false) :
    (replaceFirst p g l).find? q = l.find? q := by
  induction l with
  | nil => rfl
  | cons a t ih =>
    by_cases hpa : p a
    · rw [replaceFirst, if_pos hpa, List.find?_cons_of_neg _ (by simp [hg a hpa]),
        List.find?_cons_of_neg _ (by simp [hpq a hpa])]
    · rw [replaceFirst, if_neg hpa]
      by_cases hqa : q a
      · rw [List.find?_cons_of_pos _ hqa, List.find?_cons_of_pos _ hqa]
      · rw [List.find?_cons_of_neg _ hqa, List.find?_cons_of_neg _ hqa]
        exact ih

theorem ledgerConsistent_iff (s : DBState) :
    ledgerConsistent s ↔ ∀ fid, ledgerConsistentAt s fid := by
  constructor
  · intro h fid f hf
    have hmem : f ∈ s.files := List.mem_of_find?_eq_some hf
    have hfid : f.fileId = fid := by
      have := List.find?_some hf
      simpa [beq_iff_eq] using this
    have := h f hmem (by rw [hfid]; exact hf)
    rw [hfid] at this
    exact this
  · intro h f _ hf
    exact h f.fileId f hf

theorem lastFileMovement_append_self (ms : List Movement) (m : Movement) :
    lastFileMovement (ms ++ [m]) m.fileId = some m := by
  unfold lastFileMovement
  rw [List.filter_append]
  have h1 : List.filter (fun mm => mm.fileId == m.fileId) [m] = [m] := by
    simp [List.filter]
  rw [h1, List.getLast?_concat]

theorem lastFileMovement_append_other (ms : List Movement) (m : Movement)
    (fid : String) (h : ¬ m.fileId = fid) :
    lastFileMovement (ms ++ [m]) fid = lastFileMovement ms fid := by
  unfold lastFileMovement
  rw [List.filter_append]
  have hb : (m.fileId == fid) = false := by
    simpa using h
  have h1 : List.filter (fun mm => mm.fileId == fid) [m] = [] := by
    simp [List.filter, hb]
  rw [h1, List.append_nil]

theorem updateFileWith_movements (s : DBState) (fid : String) (upd : File → File)
    (now : Int) : (updateFileWith s fid upd now).2.movements = s.movements := by
  unfold updateFileWith
  cases getFile s fid <;> rfl

theorem updateFileWith_state_of_none (s : DBState) (fid : String) (upd : File → File)
    (now : Int) (hf : getFile s fid = none) : (updateFileWith s fid upd now).2 = s := by
  unfold updateFileWith
  rw [hf]

theorem getFile_updateFileWith_self (s : DBState) (fid : String) (upd : File → File)
    (now : Int) (f0 : File) (hf : getFile s fid = some f0)
    (hid : ((upd f0).fileId == fid) = true) :
    getFile (updateFileWith s fid upd now).2 fid =
      some { upd f0 with updatedAt := some now } := by
  unfold updateFileWith
  rw [hf]
  exact find?_replaceFirst _ _ _ f0 hf hid

theorem getFile_updateFileWith_other (s : DBState) (fid : String) (upd : File → File)
    (now : Int) (fid2 : String) (hne : ¬ fid2 = fid)
    (hupd : ∀ x, (upd x).fileId = x.fileId) :
    getFile (updateFileWith s fid upd now).2 fid2 = getFile s fid2 := by
  unfold updateFileWith
  cases hf : getFile s fid with
  | none => rfl
  | some f0 =>
    show (replaceFirst _ _ s.files).find? _ = _
    refine find?_replaceFirst_ne _ _ _ _ ?_ ?_
    · intro x hx
      have hx2 : x.fileId = fid := by simpa [beq_iff_eq] using hx
      simp only [hx2, beq_eq_false_iff_ne, ne_eq]
      exact fun hh => hne hh.symm
    · intro x _
      have hf0 : f0.fileId = fid := by
        have := List.find?_some hf
        simpa [beq_iff_eq] using this
      have hval : (({ upd f0 with updatedAt := some now } : File).fileId) = fid := by
        show (upd f0).fileId = fid
        rw [hupd f0, hf0]
      show (({ upd f0 with updatedAt := some now } : File).fileId == fid2) = false
      rw [hval]
      simp only [beq_eq_false_iff_ne, ne_eq]
      exact fun hh => hne hh.symm

theorem logMovement_movements (s : DBState) (now : Int) (d : MovementData) :
    (logMovement s now d).2.movements = s.movements ++ [newMovement now d] := by
  show (updateFileWith _ _ _ _).2.movements = _
  rw [updateFileWith_movements]

theorem getFile_logMovement_self (s : DBState) (now : Int) (d : MovementData)
    (f0 : File) (hf : getFile s d.fileId = some f0) :
    getFile (logMovement s now d).2 d.fileId =
      some { f0 with currentCustodian := d.toCustodian, updatedAt := some now } := by
  show getFile (updateFileWith _ _ _ _).2 _ = _
  have hf1 : getFile { s with movements := s.movements ++ [newMovement now d] }
      d.fileId = some f0 := hf
  have hid := List.find?_some hf
  exact getFile_updateFileWith_self _ _ _ _ f0 hf1 hid

theorem getFile_logMovement_other (s : DBState) (now : Int) (d : MovementData)
    (fid2 : String) (hne : ¬ fid2 = d.fileId) :
    getFile (logMovement s now d).2 fid2 = getFile s fid2 := by
  show getFile (updateFileWith _ _ _ _).2 _ = _
  exact getFile_updateFileWith_other
    { s with movements := s.movements ++ [newMovement now d] } d.fileId
    (fun f => { f with currentCustodian := d.toCustodian }) now fid2 hne (fun x => rfl)

theorem getFile_logMovement_none (s : DBState) (now : Int) (d : MovementData)
    (hf : getFile s d.fileId = none) :
    getFile (logMovement s now d).2 d.fileId = none := by
  have hf1 : getFile { s with movements := s.movements ++ [newMovement now d] }
      d.fileId = none := hf
  show getFile (updateFileWith _ _ _ _).2 _ = _
  rw [updateFileWith_state_of_none _ _ _ _ hf1]
  exact hf1

theorem ledgerConsistent_logMovement (s : DBState) (now : Int) (d : MovementData)
    (h : ledgerConsistent s) : ledgerConsistent (logMovement s now d).2 := by
  rw [ledgerConsistent_iff] at h ⊢
  intro fid f hf
  have hmv := logMovement_movements s now d
  have hmfid : (newMovement now d).fileId = d.fileId := rfl
  by_cases hfid : fid = d.fileId
  · subst hfid
    cases hf0 : getFile s d.fileId with
    | none =>
      rw [getFile_logMovement_none s now d hf0] at hf
      exact Option.noConfusion hf
    | some f0 =>
      rw [getFile_logMovement_self s now d f0 hf0] at hf
      obtain rfl := Option.some.inj hf
      rw [hmv, ← hmfid, lastFileMovement_append_self]
      rfl
  · rw [getFile_logMovement_other s now d fid hfid] at hf
    have := h fid f hf
    rw [hmv, lastFileMovement_append_other _ _ _ (by rw [hmfid]; exact fun hh => hfid hh.symm)]
    exact this

theorem ledgerConsistent_transferFile (s : DBState) (now : Int)
    (fid toId : String) (purpose : Option String) (notes : String)
    (h : ledgerConsistent s) :
    ledgerConsistent (transferFile s now fid toId purpose notes).2 := by
  unfold transferFile
  cases s.currentUser with
  | none => exact h
  | some u =>
    dsimp only
    by_cases hpm : PERMISSIONS u.role .logMovements = false
    · rw [if_pos hpm]; exact h
    · rw [if_neg hpm]
      cases getFile s fid with
      | none => exact h
      | some file =>
        dsimp only
        cases getUser s toId with
        | none => exact h
        | some tu =>
          dsimp only
          by_cases hguard :
              (jsTruthy purpose && !(MOVEMENT_PURPOSES.contains (jsOrD purpose ""))) = true
          · rw [if_pos hguard]; exact h
          · rw [if_neg hguard]
            exact ledgerConsistent_logMovement s now _ h

theorem transferFile_ok (s : DBState) (now : Int) (fid toId : String)
    (purpose : Option String) (notes : String) (m : Movement)
    (hok : (transferFile s now fid toId purpose notes).1 = Except.ok m) :
    ∃ file, getFile s fid = some file ∧
      m = newMovement now
        { fileId := fid, fromCustodian := some file.currentCustodian,
          toCustodian := toId, purpose := some (jsOrD purpose "Movement"),
          notes := notes } ∧
      (transferFile s now fid toId purpose notes).2 =
        (logMovement s now
          { fileId := fid, fromCustodian := some file.currentCustodian,
            toCustodian := toId, purpose := some (jsOrD purpose "Movement"),
            notes := notes }).2 := by
  revert hok
  unfold transferFile
  cases s.currentUser with
  | none => intro hok; exact absurd hok (by simp)
  | some u =>
    dsimp only
    by_cases hpm : PERMISSIONS u.role .logMovements = false
    · rw [if_pos hpm]; intro hok; exact absurd hok (by simp)
    · rw [if_neg hpm]
      cases hgf : getFile s fid with
      | none => intro hok; exact absurd hok (by simp)
      | some file =>
        dsimp only
        cases getUser s toId with
        | none => intro hok; exact absurd hok (by simp)
        | some tu =>
          dsimp only
          by_cases hguard :
              (jsTruthy purpose && !(MOVEMENT_PURPOSES.contains (jsOrD purpose ""))) = true
          · rw [if_pos hguard]; intro hok; exact absurd hok (by simp)
          · rw [if_neg hguard]
            intro hok
            exact ⟨file, rfl, (Except.ok.inj hok).symm, rfl⟩

/-- C1: starting from any ledger-consistent state, every sequence of
`transferFile` calls preserves the invariant that the observed file's
`currentCustodian` equals the `toCustodian` of the most recently appended
movement for its id (or its registration-time custodian when it has no
movement); moreover a successful call leaves the created movement as the
file's most recently appended one and its `toCustodian` — the requested new
custodian — as the file's `currentCustodian`. -/
theorem ledger_consistency (s : DBState) (h : ledgerConsistent s) :
    (∀ calls : List TransferCall, ledgerConsistent (calls.foldl applyTransfer s)) ∧
    (∀ (now : Int) (fid toId : String) (purpose : Option String) (notes : String)
        (m : Movement),
      (transferFile s now fid toId purpose notes).1 = Except.ok m →
      lastFileMovement (transferFile s now fid toId purpose notes).2.movements fid =
        some m ∧
      m.toCustodian = toId ∧
      ∃ f, getFile (transferFile s now fid toId purpose notes).2 fid = some f ∧
        f.currentCustodian = toId) := by
  constructor
  · intro calls
    induction calls generalizing s with
    | nil => exact h
    | cons c rest ih =>
      rw [List.foldl_cons]
      exact ih _ (ledgerConsistent_transferFile s c.now c.fileId c.toCustodianId
        c.purpose c.notes h)
  · intro now fid toId purpose notes m hok
    obtain ⟨file, hgf, hm, hst⟩ := transferFile_ok s now fid toId purpose notes m hok
    have hmfid : m.fileId = fid := by rw [hm]; rfl
    refine ⟨?_, by rw [hm]; rfl, ?_⟩
    · rw [hst, logMovement_movements, ← hm, ← hmfid, lastFileMovement_append_self]
    · refine ⟨{ file with currentCustodian := toId, updatedAt := some now }, ?_, rfl⟩
      rw [hst]
      exact getFile_logMovement_self s now _ file hgf

/-- Witness for C1 at a concrete input: the fixture state is consistent and
stays so across a two-transfer sequence. -/
theorem ledger_consistency_witness :
    ledgerConsistent exState ∧
    ledgerConsistent
      ([⟨1000, "CT-2026-0001", "U2", some "Filing", ""⟩,
        ⟨2000, "CT-2026-0001", "U3", none, ""⟩].foldl applyTransfer exState) :=
  ⟨by decide, (ledger_consistency exState (by decide)).1 _⟩

/-! ## C10 — status changes append self-transfers -/

theorem statusUpdate_fileId (newStatus : String) (now : Int) (f : File) :
    (statusUpdate newStatus now f).fileId = f.fileId := by
  unfold statusUpdate; split <;> rfl

theorem statusUpdate_currentCustodian (newStatus : String) (now : Int) (f : File) :
    (statusUpdate newStatus now f).currentCustodian = f.currentCustodian := by
  unfold statusUpdate; split <;> rfl

theorem statusUpdate_regCustodian (newStatus : String) (now : Int) (f : File) :
    (statusUpdate newStatus now f).regCustodian = f.regCustodian := by
  unfold statusUpdate; split <;> rfl

theorem statusUpdate_status (newStatus : String) (now : Int) (f : File) :
    (statusUpdate newStatus now f).status = newStatus := by
  unfold statusUpdate; split <;> rfl

theorem statusChange_msg_ne_empty (newStatus : String) :
    ("Status Change: " ++ newStatus) ≠ "" := by
  intro h
  have hlen := congrArg String.length h
  rw [String.length_append] at hlen
  have h1 : "Status Change: ".length = 15 := rfl
  have h2 : "".length = 0 := rfl
  rw [h1, h2] at hlen
  omega

theorem ledgerConsistent_updateFileWith (s : DBState) (fid : String)
    (upd : File → File) (now : Int)
    (hupd : ∀ x, (upd x).fileId = x.fileId ∧
      (upd x).currentCustodian = x.currentCustodian ∧
      (upd x).regCustodian = x.regCustodian)
    (h : ledgerConsistent s) : ledgerConsistent (updateFileWith s fid upd now).2 := by
  rw [ledgerConsistent_iff] at h ⊢
  intro fid2 f hf
  rw [updateFileWith_movements]
  by_cases hfid : fid2 = fid
  · subst hfid
    cases hf0 : getFile s fid2 with
    | none =>
      rw [updateFileWith_state_of_none _ _ _ _ hf0, hf0] at hf
      exact Option.noConfusion hf
    | some f0 =>
      have hfind0 : s.files.find? (fun x => x.fileId == fid2) = some f0 := hf0
      have hp := List.find?_some hfind0
      have hid : ((upd f0).fileId == fid2) = true := by
        rw [(hupd f0).1]
        exact hp
      rw [getFile_updateFileWith_self _ _ _ _ f0 hf0 hid] at hf
      obtain rfl := Option.some.inj hf
      have hcc : ({ upd f0 with updatedAt := some now } : File).currentCustodian =
          f0.currentCustodian := (hupd f0).2.1
      have hrc : ({ upd f0 with updatedAt := some now } : File).regCustodian =
          f0.regCustodian := (hupd f0).2.2
      rw [hcc, hrc]
      exact h fid2 f0 hf0
  · rw [getFile_updateFileWith_other _ _ _ _ _ hfid (fun x => (hupd x).1)] at hf
    exact h fid2 f hf

theorem stableInsert_perm {α : Type} (le : α → α → Bool) (x : α) (l : List α) :
    (stableInsert le x l).Perm (x :: l) := by
  induction l with
  | nil => exact List.Perm.refl _
  | cons y ys ih =>
    unfold stableInsert
    by_cases h : le y x = true
    · rw [if_pos h]
      exact (ih.cons y).trans (List.Perm.swap x y ys)
    · rw [if_neg h]

theorem foldl_stableInsert_perm {α : Type} (le : α → α → Bool) (l acc : List α) :
    (l.foldl (fun a x => stableInsert le x a) acc).Perm (acc ++ l) := by
  induction l generalizing acc with
  | nil => simp
  | cons x xs ih =>
    rw [List.foldl_cons]
    refine (ih (stableInsert le x acc)).trans ?_
    have h1 : (stableInsert le x acc ++ xs).Perm ((x :: acc) ++ xs) :=
      (stableInsert_perm le x acc).append_right xs
    refine h1.trans ?_
    simpa using (List.perm_middle).symm

theorem stableSort_perm {α : Type} (le : α → α → Bool) (l : List α) :
    (stableSort le l).Perm l := by
  simpa using foldl_stableInsert_perm le l []

theorem stableInsert_pairwise {α : Type} (le : α → α → Bool)
    (htrans : ∀ a b c, le a b = true → le b c = true → le a c = true)
    (htotal : ∀ a b, (le a b || le b a) = true) (x : α) (l : List α)
    (h : List.Pairwise (fun a b => le a b = true) l) :
    List.Pairwise (fun a b => le a b = true) (stableInsert le x l) := by
  induction l with
  | nil => simp [stableInsert]
  | cons y ys ih =>
    rw [List.pairwise_cons] at h
    obtain ⟨hy, hys⟩ := h
    unfold stableInsert
    by_cases hle : le y x = true
    · rw [if_pos hle]
      rw [List.pairwise_cons]
      refine ⟨?_, ih hys⟩
      intro z hz
      rcases List.mem_cons.mp ((stableInsert_perm le x ys).mem_iff.mp hz) with rfl | hzys
      · exact hle
      · exact hy z hzys
    · rw [if_neg hle]
      have hxy : le x y = true := by
        have htot := htotal y x
        rw [Bool.or_eq_true] at htot
        rcases htot with h1 | h2
        · exact absurd h1 hle
        · exact h2
      rw [List.pairwise_cons]
      refine ⟨?_, List.pairwise_cons.mpr ⟨hy, hys⟩⟩
      intro z hz
      rcases List.mem_cons.mp hz with rfl | hzys
      · exact hxy
      · exact htrans x y z hxy (hy z hzys)

theorem foldl_stableInsert_pairwise {α : Type} (le : α → α → Bool)
    (htrans : ∀ a b c, le a b = true → le b c = true → le a c = true)
    (htotal : ∀ a b, (le a b || le b a) = true) (l acc : List α)
    (hacc : List.Pairwise (fun a b => le a b = true) acc) :
    List.Pairwise (fun a b => le a b = true)
      (l.foldl (fun a x => stableInsert le x a) acc) := by
  induction l generalizing acc with
  | nil => exact hacc
  | cons x xs ih =>
    rw [List.foldl_cons]
    exact ih _ (stableInsert_pairwise le htrans htotal x acc hacc)

theorem stableSort_pairwise {α : Type} (le : α → α → Bool)
    (htrans : ∀ a b c, le a b = true → le b c = true → le a c = true)
    (htotal : ∀ a b, (le a b || le b a) = true) (l : List α) :
    List.Pairwise (fun a b => le a b = true) (stableSort le l) :=
  foldl_stableInsert_pairwise le htrans htotal l [] (List.Pairwise.nil)

theorem byTimestampDesc_trans (a b c : Movement) (hab : byTimestampDesc a b = true)
    (hbc : byTimestampDesc b c = true) : byTimestampDesc a c = true := by
  simp only [byTimestampDesc, decide_eq_true_eq] at hab hbc ⊢
  exact le_trans hbc hab

theorem byTimestampDesc_total (a b : Movement) :
    (byTimestampDesc a b || byTimestampDesc b a) = true := by
  simp only [byTimestampDesc, Bool.or_eq_true, decide_eq_true_eq]
  exact le_total b.timestamp a.timestamp

theorem mostRecentMovement_append_max (ms : List Movement) (m : Movement)
    (hmax : ∀ m2 ∈ ms.filter (fun mm => mm.fileId == m.fileId),
      m2.timestamp < m.timestamp) :
    mostRecentMovement (ms ++ [m]) m.fileId = some m := by
  unfold mostRecentMovement
  rw [List.filter_append]
  have h1 : List.filter (fun mm => mm.fileId == m.fileId) [m] = [m] := by
    simp [List.filter]
  rw [h1]
  have hperm := stableSort_perm byTimestampDesc
    (ms.filter (fun mm => mm.fileId == m.fileId) ++ [m])
  have hsorted := stableSort_pairwise byTimestampDesc byTimestampDesc_trans
    byTimestampDesc_total (ms.filter (fun mm => mm.fileId == m.fileId) ++ [m])
  cases hsort : stableSort byTimestampDesc
      (ms.filter (fun mm => mm.fileId == m.fileId) ++ [m]) with
  | nil =>
    exfalso
    have hlen := hperm.length_eq
    rw [hsort] at hlen
    simp at hlen
  | cons h t =>
    rw [hsort] at hperm hsorted
    have hm_mem : m ∈ h :: t := hperm.mem_iff.mpr (by simp)
    have hh_mem : h ∈ ms.filter (fun mm => mm.fileId == m.fileId) ++ [m] :=
      hperm.mem_iff.mp (by simp)
    show some h = some m
    rcases List.mem_append.mp hh_mem with hhl | hhm
    · rcases List.mem_cons.mp hm_mem with heq | hmt
      · rw [heq]
      · exfalso
        have hle := (List.pairwise_cons.mp hsorted).1 m hmt
        simp only [byTimestampDesc, decide_eq_true_eq] at hle
        exact absurd (hmax h hhl) (not_lt.mpr hle)
    · simp only [List.mem_singleton] at hhm
      rw [hhm]

/-- C10: `changeStatus` does not append a self-transfer. file-manager.js:70
calls the async `CaseTrackDB.updateFile` without `await`, so lines 75-76 read
`file.currentCustodian` off a pending Promise: at the fixture store (clerk
logged in, file CT-2026-0001 in the custody of "U1", empty movement log) a
valid status change reports success, yet the single appended movement carries
`fromCustodian = null` and `toCustodian = undefined` — not the custodian "U1"
twice — and the file's `currentCustodian` is clobbered to `undefined` instead
of staying "U1", refuting the claimed self-transfer frame effect. -/
theorem status_change_clobbers_custodian :
    (changeStatus exState 5000 "CT-2026-0001" "Dormant" "").1 = Except.ok () ∧
    (changeStatus exState 5000 "CT-2026-0001" "Dormant" "").2.2.map
      (fun m => (m.fromCustodian, m.toCustodian, m.purpose)) =
      [(none, none, "Status Change: Dormant")] ∧
    (changeStatus exState 5000 "CT-2026-0001" "Dormant" "").2.1.map
      (fun f => (f.currentCustodian, f.status)) = [(none, "Dormant")] ∧
    exFile.currentCustodian = "U1" :=
  ⟨rfl, rfl, rfl, rfl⟩

/-! ## C6 — bottleneck analyzer -/

theorem byDaysHeldDesc_trans (a b c : BottleneckEntry)
    (hab : byDaysHeldDesc a b = true) (hbc : byDaysHeldDesc b c = true) :
    byDaysHeldDesc a c = true := by
  simp only [byDaysHeldDesc, decide_eq_true_eq] at hab hbc ⊢
  exact le_trans hbc hab

theorem byDaysHeldDesc_total (a b : BottleneckEntry) :
    (byDaysHeldDesc a b || byDaysHeldDesc b a) = true := by
  simp only [byDaysHeldDesc, Bool.or_eq_true, decide_eq_true_eq]
  exact le_total b.daysHeld a.daysHeld

theorem mem_getBottleneckReport (files : List File) (movements : List Movement)
    (now t : Int) (e : BottleneckEntry) :
    e ∈ getBottleneckReport files movements now t ↔
      ∃ f ∈ files.filter (fun f => f.status == "Active"),
        bottleneckRow now t movements f = some e := by
  unfold getBottleneckReport
  rw [(stableSort_perm _ _).mem_iff, List.mem_filterMap]

theorem bottleneckRow_some (now t : Int) (movements : List Movement)
    (file : File) (e : BottleneckEntry)
    (h : bottleneckRow now t movements file = some e) :
    e.file = file ∧ e.currentCustodian = file.currentCustodian ∧
    mostRecentMovement movements file.fileId = some e.lastMovement ∧
    e.daysHeld = roundDiv (now - e.lastMovement.timestamp) msPerDay ∧
    t ≤ e.daysHeld ∧
    e.riskLevel = (if 14 ≤ e.daysHeld then "high"
      else if 7 ≤ e.daysHeld then "medium" else "low") := by
  unfold bottleneckRow at h
  cases hmr : mostRecentMovement movements file.fileId with
  | none => rw [hmr] at h; exact Option.noConfusion h
  | some lm =>
    rw [hmr] at h
    dsimp only at h
    by_cases hth : t ≤ roundDiv (now - lm.timestamp) msPerDay
    · rw [if_pos hth] at h
      obtain rfl := Option.some.inj h
      exact ⟨rfl, rfl, rfl, rfl, hth, rfl⟩
    · rw [if_neg hth] at h
      exact Option.noConfusion h

theorem bottleneckRow_of_threshold (now t : Int) (movements : List Movement)
    (file : File) (m : Movement)
    (hmr : mostRecentMovement movements file.fileId = some m)
    (hth : t ≤ roundDiv (now - m.timestamp) msPerDay) :
    bottleneckRow now t movements file = some
      { file := file
        currentCustodian := file.currentCustodian
        lastMovement := m
        daysHeld := roundDiv (now - m.timestamp) msPerDay
        riskLevel :=
          if 14 ≤ roundDiv (now - m.timestamp) msPerDay then "high"
          else if 7 ≤ roundDiv (now - m.timestamp) msPerDay then "medium"
          else "low" } := by
  unfold bottleneckRow
  rw [hmr]
  dsimp only
  rw [if_pos hth]

/-- C6 counterexample: at thresholdDays = 3 a file whose last movement was 5
days ago is included with riskLevel "low" — database.js:484 has a reachable
low tier (`daysHeld >= 14 ? high : daysHeld >= 7 ? medium : low`), so
"riskLevel is medium for every thresholdDays whenever daysHeld < 14" and
"no low tier is ever returned" are both false as stated. -/
theorem bottleneck_low_counterexample :
    (getBottleneckReport [exFile] [c6Move] 432000000 3).map
      (fun e => (e.daysHeld, e.riskLevel)) = [(5, "low")] := rfl

/-- C6 amended: a report entry exists for an Active file exactly when the
file has a most recent movement with `daysHeld >= thresholdDays`; riskLevel
is "high" when `daysHeld >= 14`, "medium" when `7 <= daysHeld < 14`, and
"low" below that — unreachable whenever `thresholdDays >= 7` (as in both
alert-engine call sites) but returned for smaller thresholds; the report is
sorted descending by daysHeld. -/
theorem bottleneck_report_spec (files : List File) (movements : List Movement)
    (now t : Int) :
    (∀ e ∈ getBottleneckReport files movements now t,
      e.riskLevel = (if 14 ≤ e.daysHeld then "high"
        else if 7 ≤ e.daysHeld then "medium" else "low") ∧
      (7 ≤ t → e.riskLevel ≠ "low") ∧
      t ≤ e.daysHeld ∧ e.file.status = "Active" ∧ e.file ∈ files ∧
      mostRecentMovement movements e.file.fileId = some e.lastMovement ∧
      e.daysHeld = roundDiv (now - e.lastMovement.timestamp) msPerDay ∧
      e.currentCustodian = e.file.currentCustodian) ∧
    (∀ f ∈ files, f.status = "Active" → ∀ m,
      mostRecentMovement movements f.fileId = some m →
      t ≤ roundDiv (now - m.timestamp) msPerDay →
      ∃ e ∈ getBottleneckReport files movements now t,
        e.file = f ∧ e.lastMovement = m) ∧
    List.Pairwise (fun a b => b.daysHeld ≤ a.daysHeld)
      (getBottleneckReport files movements now t) := by
  refine ⟨?_, ?_, ?_⟩
  · intro e he
    obtain ⟨f, hfmem, hrow⟩ := (mem_getBottleneckReport files movements now t e).mp he
    obtain ⟨hef, hcc, hmr, hdh, hth, hrl⟩ := bottleneckRow_some now t movements f e hrow
    obtain ⟨hfmem2, hact⟩ := List.mem_filter.mp hfmem
    have hact2 : f.status = "Active" := by simpa [beq_iff_eq] using hact
    refine ⟨hrl, ?_, hth, by rw [hef]; exact hact2, by rw [hef]; exact hfmem2,
      by rw [hef]; exact hmr, hdh, by rw [hef]; exact hcc⟩
    intro h7 hlow
    rw [hrl] at hlow
    by_cases h14 : 14 ≤ e.daysHeld
    · rw [if_pos h14] at hlow; exact absurd hlow (by decide)
    · rw [if_neg h14, if_pos (le_trans h7 hth)] at hlow
      exact absurd hlow (by decide)
  · intro f hf hact m hmr hth
    refine ⟨_, (mem_getBottleneckReport files movements now t _).mpr
      ⟨f, List.mem_filter.mpr ⟨hf, by simp [hact]⟩,
        bottleneckRow_of_threshold now t movements f m hmr hth⟩, rfl, rfl⟩
  · have hs := stableSort_pairwise byDaysHeldDesc byDaysHeldDesc_trans
      byDaysHeldDesc_total
      ((files.filter (fun f => f.status == "Active")).filterMap
        (bottleneckRow now t movements))
    exact hs.imp (fun hab => by
      simpa [byDaysHeldDesc, decide_eq_true_eq] using hab)

/-- Witness for the amended C6 at a concrete input: 19 days held at
threshold 7 yields the high-risk entry `c6Entry`. -/
theorem bottleneck_report_spec_witness :
    c6Entry ∈ getBottleneckReport [exFile] [c6Move] 1641600000 7 ∧
    (c6Entry.riskLevel = (if 14 ≤ c6Entry.daysHeld then "high"
        else if 7 ≤ c6Entry.daysHeld then "medium" else "low") ∧
      ((7 : Int) ≤ 7 → c6Entry.riskLevel ≠ "low") ∧
      (7 : Int) ≤ c6Entry.daysHeld ∧ c6Entry.file.status = "Active" ∧
      c6Entry.file ∈ [exFile] ∧
      mostRecentMovement [c6Move] c6Entry.file.fileId = some c6Entry.lastMovement ∧
      c6Entry.daysHeld = roundDiv (1641600000 - c6Entry.lastMovement.timestamp) msPerDay ∧
      c6Entry.currentCustodian = c6Entry.file.currentCustodian) :=
  ⟨by decide,
    (bottleneck_report_spec [exFile] [c6Move] 1641600000 7).1 c6Entry (by decide)⟩

/-! ## C8 — history ordering -/

/-- C8 counterexample: `getFileMovements` is a filter with no sort
(database.js:120-122), so `getFileHistory` returns the stored order. After a
backend sync the store is newest-first (GET /api/movements returns
`ORDER BY timestamp DESC`, src/server/server.js:403, and `syncWithBackend`
saves the payload verbatim, database.js:35): on such a store the history of
the sample file comes back [t=864000000, t=432000000] — newest first, not
oldest-to-newest as claimed. -/
theorem history_order_counterexample :
    ((getFileHistory c8State "CT-2026-0001").map
      (fun h => h.movement.timestamp)) = [864000000, 432000000] ∧
    (432000000 : Int) < 864000000 :=
  ⟨rfl, by decide⟩

/-- C8 amended: for a viewable existing file, `getFileHistory` returns
exactly the file's movements in stored log order; that order is
oldest-to-newest by timestamp whenever the per-file log is chronologically
ordered, and `logMovement` appends keep it chronological under a monotone
clock — but a backend sync stores the log newest-first, so the sort claim
does not hold of arbitrary stores. -/
theorem history_log_order (s : DBState) (fid : String) (f : File)
    (hf : getFile s fid = some f) (hcv : canViewFile s f = true) :
    ((getFileHistory s fid).map (fun h => h.movement) = getFileMovements s fid) ∧
    (List.Pairwise (fun a b => a.timestamp ≤ b.timestamp) (getFileMovements s fid) →
      List.Pairwise (fun a b => a.movement.timestamp ≤ b.movement.timestamp)
        (getFileHistory s fid)) ∧
    (∀ (now : Int) (d : MovementData),
      (∀ m ∈ s.movements, m.timestamp ≤ now) →
      List.Pairwise (fun a b => a.timestamp ≤ b.timestamp) (getFileMovements s fid) →
      List.Pairwise (fun a b => a.timestamp ≤ b.timestamp)
        (getFileMovements (logMovement s now d).2 fid)) := by
  have hist : getFileHistory s fid = (getFileMovements s fid).map
      (fun m =>
        { movement := m
          fromUserInfo :=
            match m.fromCustodian with
            | none => none
            | some c => getUser s c
          toUserInfo := getUser s m.toCustodian }) := by
    simp only [getFileHistory, hf, hcv, Bool.not_true, Bool.false_eq_true, if_false]
  refine ⟨?_, ?_, ?_⟩
  · rw [hist, List.map_map]
    exact List.map_id' _
  · intro hchron
    rw [hist, List.pairwise_map]
    exact hchron
  · intro now d hbound hchron
    unfold getFileMovements
    rw [logMovement_movements, List.filter_append]
    by_cases hfidm : ((newMovement now d).fileId == fid) = true
    · have hfm : List.filter (fun m => m.fileId == fid) [newMovement now d] =
          [newMovement now d] := by
        simp [List.filter, hfidm]
      rw [hfm, List.pairwise_append]
      refine ⟨hchron, List.pairwise_singleton _ _, ?_⟩
      intro a ha b hb
      simp only [List.mem_singleton] at hb
      subst hb
      exact hbound a (List.mem_filter.mp ha).1
    · have hfm : List.filter (fun m => m.fileId == fid) [newMovement now d] = [] := by
        simp only [Bool.not_eq_true] at hfidm
        simp [List.filter, hfidm]
      rw [hfm, List.append_nil]
      exact hchron

/-- Witness for the amended C8 at a concrete input: the partner views the
sample file's history in `c8State`. -/
theorem history_log_order_witness :
    getFile c8State "CT-2026-0001" = some exFile ∧
    canViewFile c8State exFile = true ∧
    (((getFileHistory c8State "CT-2026-0001").map (fun h => h.movement) =
        getFileMovements c8State "CT-2026-0001") ∧
      (List.Pairwise (fun a b => a.timestamp ≤ b.timestamp)
          (getFileMovements c8State "CT-2026-0001") →
        List.Pairwise (fun a b => a.movement.timestamp ≤ b.movement.timestamp)
          (getFileHistory c8State "CT-2026-0001")) ∧
      (∀ (now : Int) (d : MovementData),
        (∀ m ∈ c8State.movements, m.timestamp ≤ now) →
        List.Pairwise (fun a b => a.timestamp ≤ b.timestamp)
          (getFileMovements c8State "CT-2026-0001") →
        List.Pairwise (fun a b => a.timestamp ≤ b.timestamp)
          (getFileMovements (logMovement c8State now d).2 "CT-2026-0001"))) :=
  ⟨rfl, rfl, history_log_order c8State "CT-2026-0001" exFile rfl rfl⟩

/-! ## Alert engine dedup machinery -/

theorem runAttempts_cons (now : Int) (alerts : List Alert) (r : AlertReq)
    (rs : List AlertReq) :
    runAttempts now alerts (r :: rs) =
      runAttempts now (createAlertIfNew now alerts r) rs := rfl

theorem runAttempts_append (now : Int) (alerts : List Alert)
    (rs1 rs2 : List AlertReq) :
    runAttempts now alerts (rs1 ++ rs2) =
      runAttempts now (runAttempts now alerts rs1) rs2 :=
  List.foldl_append _ _ _ _

theorem existsMatch_createAlertIfNew (now : Int) (alerts : List Alert)
    (r r2 : AlertReq)
    (h : alerts.any (fun a => !a.dismissed && alertMatches r a) = true) :
    (createAlertIfNew now alerts r2).any
      (fun a => !a.dismissed && alertMatches r a) = true := by
  unfold createAlertIfNew
  by_cases hc : alerts.any (fun a => !a.dismissed && alertMatches r2 a) = true
  · rw [if_pos hc]; exact h
  · rw [if_neg hc]
    unfold createAlert
    rw [List.any_append, h]
    rfl

theorem existsMatch_runAttempts (now : Int) (alerts : List Alert)
    (rs : List AlertReq) (r : AlertReq)
    (h : alerts.any (fun a => !a.dismissed && alertMatches r a) = true) :
    (runAttempts now alerts rs).any
      (fun a => !a.dismissed && alertMatches r a) = true := by
  induction rs generalizing alerts with
  | nil => exact h
  | cons r2 rs ih =>
    rw [runAttempts_cons]
    exact ih _ (existsMatch_createAlertIfNew now alerts r r2 h)

theorem mkAlert_selfMatch (now : Int) (r : AlertReq) :
    (!(mkAlert now r).dismissed && alertMatches r (mkAlert now r)) = true := by
  simp [mkAlert, alertMatches]

theorem runAttempts_covers (now : Int) (alerts : List Alert)
    (rs : List AlertReq) (r : AlertReq) (hr : r ∈ rs) :
    (runAttempts now alerts rs).any
      (fun a => !a.dismissed && alertMatches r a) = true := by
  induction rs generalizing alerts with
  | nil => cases hr
  | cons r2 rs ih =>
    rw [runAttempts_cons]
    rcases List.mem_cons.mp hr with rfl | hr2
    · apply existsMatch_runAttempts
      unfold createAlertIfNew
      by_cases hc : alerts.any (fun a => !a.dismissed && alertMatches r a) = true
      · rw [if_pos hc]; exact hc
      · rw [if_neg hc]
        unfold createAlert
        rw [List.any_append]
        have hone : List.any [mkAlert now r]
            (fun a => !a.dismissed && alertMatches r a) = true := by
          simp only [List.any_cons, List.any_nil, Bool.or_false]
          exact mkAlert_selfMatch now r
        rw [hone, Bool.or_true]
    · exact ih _ hr2

theorem createAlertIfNew_noop (now : Int) (alerts : List Alert) (r : AlertReq)
    (h : alerts.any (fun a => !a.dismissed && alertMatches r a) = true) :
    createAlertIfNew now alerts r = alerts := by
  unfold createAlertIfNew
  rw [if_pos h]

theorem runAttempts_noop (now : Int) (alerts : List Alert) (rs : List AlertReq)
    (h : ∀ r ∈ rs, alerts.any (fun a => !a.dismissed && alertMatches r a) = true) :
    runAttempts now alerts rs = alerts := by
  induction rs with
  | nil => rfl
  | cons r rs ih =>
    rw [runAttempts_cons, createAlertIfNew_noop now alerts r (h r (List.mem_cons_self _ _))]
    exact ih (fun r2 hr2 => h r2 (List.mem_cons_of_mem _ hr2))

theorem runAttempts_idem (now : Int) (alerts : List Alert) (rs : List AlertReq) :
    runAttempts now (runAttempts now alerts rs) rs = runAttempts now alerts rs :=
  runAttempts_noop now _ rs (fun r hr => runAttempts_covers now alerts rs r hr)

theorem mem_runAttempts (now : Int) (alerts : List Alert) (rs : List AlertReq)
    (a : Alert) (ha : a ∈ runAttempts now alerts rs) :
    a ∈ alerts ∨ ∃ r ∈ rs, a = mkAlert now r := by
  induction rs generalizing alerts with
  | nil => exact Or.inl ha
  | cons r rs ih =>
    rw [runAttempts_cons] at ha
    rcases ih _ ha with h1 | ⟨r2, hr2, rfl⟩
    · unfold createAlertIfNew at h1
      by_cases hc : alerts.any (fun x => !x.dismissed && alertMatches r x) = true
      · rw [if_pos hc] at h1
        exact Or.inl h1
      · rw [if_neg hc] at h1
        unfold createAlert at h1
        rcases List.mem_append.mp h1 with h2 | h2
        · exact Or.inl h2
        · simp only [List.mem_singleton] at h2
          exact Or.inr ⟨r, List.mem_cons_self _ _, h2⟩
    · exact Or.inr ⟨r2, List.mem_cons_of_mem _ hr2, rfl⟩

theorem dedupOK_createAlertIfNew (now : Int) (alerts : List Alert) (r : AlertReq)
    (h : dedupOK alerts) : dedupOK (createAlertIfNew now alerts r) := by
  unfold createAlertIfNew
  by_cases hc : alerts.any (fun a => !a.dismissed && alertMatches r a) = true
  · rw [if_pos hc]; exact h
  · rw [if_neg hc]
    unfold createAlert dedupOK
    rw [List.pairwise_append]
    refine ⟨h, List.pairwise_singleton _ _, ?_⟩
    intro a ha b hb
    simp only [List.mem_singleton] at hb
    subst hb
    intro hda _ hkey
    apply hc
    rw [List.any_eq_true]
    refine ⟨a, ha, ?_⟩
    obtain ⟨h1, h2, h3⟩ : a.type = r.type ∧ a.fileId = r.fileId ∧
        a.targetUserId = r.targetUserId := by
      simpa only [alertKey, mkAlert, Prod.mk.injEq] using hkey
    simp [alertMatches, hda, h1, h2, h3]

theorem dedupOK_runAttempts (now : Int) (alerts : List Alert) (rs : List AlertReq)
    (h : dedupOK alerts) : dedupOK (runAttempts now alerts rs) := by
  induction rs generalizing alerts with
  | nil => exact h
  | cons r rs ih =>
    rw [runAttempts_cons]
    exact ih _ (dedupOK_createAlertIfNew now alerts r h)

theorem runAlertCheck_alerts (s : DBState) (now : Int) :
    runAlertCheck s now = { s with alerts := (runAttempts now s.alerts
      (deadlineReqs s.files s.users now s.deadlines ++
       overdueFileReqs s.files s.movements s.users now ++
       unackReqs s.files s.movements now ++
       digitalReqs s.files)) } := by
  unfold runAlertCheck checkDeadlineAlerts checkOverdueFiles
    checkUnacknowledgedMovements checkMissingDigitalLinks
  dsimp only
  rw [runAttempts_append, runAttempts_append, runAttempts_append]

/-! ## C2 — scan idempotence and dedup invariant -/

/-- C2: running the full alert scan twice at the same instant with no other
state change is a no-op the second time (zero new alerts — in fact the whole
state is unchanged), and "at most one active alert per
(type, fileId, targetUserId)" is preserved by any number of scans run at any
times. -/
theorem alert_scan_dedup (s : DBState) (now : Int) :
    runAlertCheck (runAlertCheck s now) now = runAlertCheck s now ∧
    (dedupOK s.alerts →
      ∀ scans : List Int, dedupOK ((scans.foldl runAlertCheck s).alerts)) := by
  constructor
  · rw [runAlertCheck_alerts s now, runAlertCheck_alerts]
    dsimp only
    rw [runAttempts_idem]
  · have aux : ∀ (ts : List Int) (s2 : DBState), dedupOK s2.alerts →
        dedupOK ((ts.foldl runAlertCheck s2).alerts) := by
      intro ts
      induction ts with
      | nil => intro s2 h2; exact h2
      | cons t ts ih =>
        intro s2 h2
        rw [List.foldl_cons]
        apply ih
        rw [runAlertCheck_alerts]
        exact dedupOK_runAttempts t s2.alerts _ h2
    exact fun h scans => aux scans s h

/-- Witness for C2 at a concrete input: the overdue-deadline fixture state
satisfies the dedup invariant before and after two scans. -/
theorem alert_scan_dedup_witness :
    dedupOK c5State.alerts ∧
    dedupOK (([86400000, 86400000].foldl runAlertCheck c5State).alerts) :=
  ⟨by decide,
    (alert_scan_dedup c5State 0).2 (by decide) [86400000, 86400000]⟩

/-! ## Deadline-pass branch equations -/

theorem deadlineReqsFor_overdue_eq (files : List File) (users : List User)
    (now : Int) (d : Deadline) (file : File)
    (hf : files.find? (fun f => f.fileId == d.fileId) = some file)
    (hneg : daysUntil now d.dueDate < 0) :
    deadlineReqsFor files users now d =
      { type := "deadline_overdue"
        severity := "critical"
        fileId := some d.fileId
        deadlineId := some d.deadlineId
        targetUserId := firstAdvocate file } ::
      (users.filter (fun u => u.role == "Partner")).map (fun p =>
        { type := "escalation"
          severity := "critical"
          fileId := some d.fileId
          deadlineId := some d.deadlineId
          targetUserId := some p.userId }) := by
  unfold deadlineReqsFor
  rw [hf]
  dsimp only
  rw [if_pos hneg]

theorem deadlineReqsFor_upcoming_eq (files : List File) (users : List User)
    (now : Int) (d : Deadline) (file : File)
    (hf : files.find? (fun f => f.fileId == d.fileId) = some file)
    (hneg : ¬ daysUntil now d.dueDate < 0)
    (hmem : deadlineWarningDays.contains (daysUntil now d.dueDate) = true) :
    deadlineReqsFor files users now d =
      ({ type := "deadline_upcoming"
         severity := (if daysUntil now d.dueDate == 1 then "critical" else if daysUntil now d.dueDate ≤ 3 then "warning" else "info")
         fileId := some d.fileId
         deadlineId := some d.deadlineId
         targetUserId := firstAdvocate file } ::
       (match file.assignedAdvocates with
        | some l =>
          if !(l.contains file.currentCustodian) then
            [{ type := "file_location_warning"
               severity := "warning"
               fileId := some d.fileId
               deadlineId := none
               targetUserId := some file.currentCustodian }]
          else []
        | none => [])) := by
  unfold deadlineReqsFor
  rw [hf]
  dsimp only
  rw [if_neg hneg, if_pos hmem]

theorem deadlineReqsFor_none_eq (files : List File) (users : List User)
    (now : Int) (d : Deadline) (file : File)
    (hf : files.find? (fun f => f.fileId == d.fileId) = some file)
    (hneg : ¬ daysUntil now d.dueDate < 0)
    (hmem : ¬ deadlineWarningDays.contains (daysUntil now d.dueDate) = true) :
    deadlineReqsFor files users now d = [] := by
  unfold deadlineReqsFor
  rw [hf]
  dsimp only
  rw [if_neg hneg, if_neg hmem]

theorem warningDays_mem_iff (x : Int) :
    deadlineWarningDays.contains x = true ↔ (x = 7 ∨ x = 3 ∨ x = 1) := by
  show List.elem x deadlineWarningDays = true ↔ _
  rw [List.elem_iff]
  simp [deadlineWarningDays]

theorem locWarnReqs_type (files : List File) (now : Int) (d : Deadline)
    (file : File) (r : AlertReq)
    (hr : r ∈ (match file.assignedAdvocates with
        | some l =>
          if !(l.contains file.currentCustodian) then
            [({ type := "file_location_warning"
                severity := "warning"
                fileId := some d.fileId
                deadlineId := none
                targetUserId := some file.currentCustodian } : AlertReq)]
          else []
        | none => ([] : List AlertReq))) :
    r.type = "file_location_warning" := by
  cases hadv : file.assignedAdvocates with
  | none => rw [hadv] at hr; cases hr
  | some l =>
    rw [hadv] at hr
    dsimp only at hr
    by_cases hc : (!(l.contains file.currentCustodian)) = true
    · rw [if_pos hc] at hr
      simp only [List.mem_singleton] at hr
      subst hr
      rfl
    · rw [if_neg hc] at hr
      cases hr

/-! ## C3 — deadline threshold exactness -/

theorem daysUntil_26h (now : Int) : daysUntil now (now + 26 * msPerHour) = 2 := by
  unfold daysUntil msPerHour msPerDay ceilDiv
  have h : now + 26 * 3600000 - now = 93600000 := by ring
  rw [h]
  decide

/-- C3: for a Pending deadline whose file exists, the deadline pass issues a
`deadline_upcoming` request exactly when
`daysUntil = ceil((dueDate - now) / 86400s)` is 7, 3 or 1 (exact membership);
its severity is critical at 1, warning at 3 and info at 7; and a deadline due
in exactly 26 hours has daysUntil = 2, so no upcoming alert is produced. -/
theorem deadline_threshold_exactness (files : List File) (users : List User)
    (now : Int) (d : Deadline) (file : File)
    (hpend : d.status = "Pending")
    (hf : files.find? (fun f => f.fileId == d.fileId) = some file) :
    (((deadlineReqsFor files users now d).any
        (fun r => r.type == "deadline_upcoming")) = true ↔
      (daysUntil now d.dueDate = 7 ∨ daysUntil now d.dueDate = 3 ∨
        daysUntil now d.dueDate = 1)) ∧
    (∀ r ∈ deadlineReqsFor files users now d, r.type = "deadline_upcoming" →
      r.severity = (if daysUntil now d.dueDate = 1 then "critical"
        else if daysUntil now d.dueDate = 3 then "warning" else "info")) ∧
    (d.dueDate = now + 26 * msPerHour →
      daysUntil now d.dueDate = 2 ∧
      (deadlineReqsFor files users now d).any
        (fun r => r.type == "deadline_upcoming") = false) := by
  have hiff : ((deadlineReqsFor files users now d).any
      (fun r => r.type == "deadline_upcoming")) = true ↔
      (daysUntil now d.dueDate = 7 ∨ daysUntil now d.dueDate = 3 ∨
        daysUntil now d.dueDate = 1) := by
    by_cases hneg : daysUntil now d.dueDate < 0
    · rw [deadlineReqsFor_overdue_eq files users now d file hf hneg,
        List.any_cons]
      have hrest : (((users.filter (fun u => u.role == "Partner")).map (fun p =>
          ({ type := "escalation"
             severity := "critical"
             fileId := some d.fileId
             deadlineId := some d.deadlineId
             targetUserId := some p.userId } : AlertReq))).any
          (fun r => r.type == "deadline_upcoming")) = false := by
        rw [List.any_eq_false]
        intro r hrr
        obtain ⟨p, _, rfl⟩ := List.mem_map.mp hrr
        exact (show ¬((("escalation" : String) == "deadline_upcoming") = true)
          by decide)
      rw [hrest]
      constructor
      · intro hcontra
        exact absurd hcontra
          (show ¬(((("deadline_overdue" : String) == "deadline_upcoming") || false) = true)
            by decide)
      · intro hdisj
        exfalso
        rcases hdisj with h7 | h3 | h1 <;> omega
    · by_cases hmem : deadlineWarningDays.contains (daysUntil now d.dueDate) = true
      · rw [deadlineReqsFor_upcoming_eq files users now d file hf hneg hmem,
          List.any_cons]
        constructor
        · intro _
          exact (warningDays_mem_iff _).mp hmem
        · intro _
          show ((("deadline_upcoming" : String) == "deadline_upcoming") || _) = true
          rw [show (("deadline_upcoming" : String) == "deadline_upcoming") = true
            from rfl, Bool.true_or]
      · rw [deadlineReqsFor_none_eq files users now d file hf hneg hmem]
        simp only [List.any_nil, Bool.false_eq_true, false_iff]
        intro hdisj
        exact hmem ((warningDays_mem_iff _).mpr hdisj)
  refine ⟨hiff, ?_, ?_⟩
  · intro r hr htype
    by_cases hneg : daysUntil now d.dueDate < 0
    · rw [deadlineReqsFor_overdue_eq files users now d file hf hneg] at hr
      rcases List.mem_cons.mp hr with rfl | hr2
      · exact absurd htype
          (show ("deadline_overdue" : String) ≠ "deadline_upcoming" by decide)
      · obtain ⟨p, _, rfl⟩ := List.mem_map.mp hr2
        exact absurd htype
          (show ("escalation" : String) ≠ "deadline_upcoming" by decide)
    · by_cases hmem : deadlineWarningDays.contains (daysUntil now d.dueDate) = true
      · rw [deadlineReqsFor_upcoming_eq files users now d file hf hneg hmem] at hr
        rcases List.mem_cons.mp hr with rfl | hr2
        · show (if daysUntil now d.dueDate == 1 then "critical"
            else if daysUntil now d.dueDate ≤ 3 then "warning" else "info") = _
          rcases (warningDays_mem_iff _).mp hmem with h7 | h3 | h1
          · rw [h7]; decide
          · rw [h3]; decide
          · rw [h1]; decide
        · have hlw := locWarnReqs_type files now d file r hr2
          rw [htype] at hlw
          exact absurd hlw (by decide)
      · rw [deadlineReqsFor_none_eq files users now d file hf hneg hmem] at hr
        cases hr
  · intro hdue
    have h2 : daysUntil now d.dueDate = 2 := by
      rw [hdue]; exact daysUntil_26h now
    refine ⟨h2, ?_⟩
    cases hany : (deadlineReqsFor files users now d).any
        (fun r => r.type == "deadline_upcoming") with
    | false => rfl
    | true =>
      exfalso
      rcases hiff.mp hany with h7 | h3 | h1 <;> omega

/-- Witness for C3 at a concrete input: a Pending deadline of the sample
file due exactly 3 days from time 0. -/
theorem deadline_threshold_exactness_witness :
    d3Deadline.status = "Pending" ∧
    [exFile].find? (fun f => f.fileId == d3Deadline.fileId) = some exFile ∧
    ((((deadlineReqsFor [exFile] allUsers 0 d3Deadline).any
        (fun r => r.type == "deadline_upcoming")) = true ↔
      (daysUntil 0 d3Deadline.dueDate = 7 ∨ daysUntil 0 d3Deadline.dueDate = 3 ∨
        daysUntil 0 d3Deadline.dueDate = 1)) ∧
    (∀ r ∈ deadlineReqsFor [exFile] allUsers 0 d3Deadline,
      r.type = "deadline_upcoming" →
      r.severity = (if daysUntil 0 d3Deadline.dueDate = 1 then "critical"
        else if daysUntil 0 d3Deadline.dueDate = 3 then "warning" else "info")) ∧
    (d3Deadline.dueDate = 0 + 26 * msPerHour →
      daysUntil 0 d3Deadline.dueDate = 2 ∧
      (deadlineReqsFor [exFile] allUsers 0 d3Deadline).any
        (fun r => r.type == "deadline_upcoming") = false)) :=
  ⟨rfl, rfl,
    deadline_threshold_exactness [exFile] allUsers 0 d3Deadline exFile rfl rfl⟩

/-! ## C5 — overdue escalation: counting lemmas -/

theorem alertKey_mkAlert (now : Int) (r : AlertReq) :
    alertKey (mkAlert now r) = (r.type, r.fileId, r.targetUserId) := rfl

theorem countP_le_one_key : ∀ (l : List Alert), dedupOK l →
    ∀ (P : Alert → Bool) (k : String × Option String × Option String),
    (∀ a ∈ l, P a = true → a.dismissed = false ∧ alertKey a = k) →
    l.countP P ≤ 1 := by
  intro l
  induction l with
  | nil =>
    intro _ P k _
    simp [List.countP_nil]
  | cons x xs ih =>
    intro hd P k hP
    unfold dedupOK at hd
    rw [List.pairwise_cons] at hd
    rw [List.countP_cons]
    by_cases hPx : P x = true
    · have h0 : xs.countP P = 0 := by
        rw [List.countP_eq_zero]
        intro b hb hPb
        obtain ⟨hxd, hxk⟩ := hP x (List.mem_cons_self _ _) hPx
        obtain ⟨hbd, hbk⟩ := hP b (List.mem_cons_of_mem _ hb) hPb
        exact (hd.1 b hb hxd hbd) (hxk.trans hbk.symm)
      rw [h0, if_pos hPx]
    · rw [if_neg hPx, Nat.add_zero]
      exact ih hd.2 P k (fun a ha hPa => hP a (List.mem_cons_of_mem _ ha) hPa)

theorem countP_pos_of_any (l : List Alert) (P q : Alert → Bool)
    (hc : l.any q = true) (himp : ∀ a ∈ l, q a = true → P a = true) :
    1 ≤ l.countP P := by
  obtain ⟨a, ha, hqa⟩ := List.any_eq_true.mp hc
  rcases Nat.eq_zero_or_pos (l.countP P) with h0 | hpos
  · rw [List.countP_eq_zero] at h0
    exact absurd (himp a ha hqa) (h0 a ha)
  · exact hpos

theorem overdueReq_mem (s : DBState) (now : Int) (d : Deadline) (file : File)
    (hd : d ∈ s.deadlines) (hp : d.status = "Pending")
    (hneg : daysUntil now d.dueDate < 0)
    (hf : s.files.find? (fun f => f.fileId == d.fileId) = some file) :
    ({ type := "deadline_overdue"
       severity := "critical"
       fileId := some d.fileId
       deadlineId := some d.deadlineId
       targetUserId := firstAdvocate file } : AlertReq) ∈
      deadlineReqs s.files s.users now s.deadlines := by
  apply List.mem_flatMap.mpr
  refine ⟨d, List.mem_filter.mpr ⟨hd, by simp [hp]⟩, ?_⟩
  rw [deadlineReqsFor_overdue_eq s.files s.users now d file hf hneg]
  exact List.mem_cons_self _ _

theorem escReq_mem (s : DBState) (now : Int) (d : Deadline) (file : File)
    (hd : d ∈ s.deadlines) (hp : d.status = "Pending")
    (hneg : daysUntil now d.dueDate < 0)
    (hf : s.files.find? (fun f => f.fileId == d.fileId) = some file)
    (p : User) (hpu : p ∈ s.users) (hrole : p.role = "Partner") :
    ({ type := "escalation"
       severity := "critical"
       fileId := some d.fileId
       deadlineId := some d.deadlineId
       targetUserId := some p.userId } : AlertReq) ∈
      deadlineReqs s.files s.users now s.deadlines := by
  apply List.mem_flatMap.mpr
  refine ⟨d, List.mem_filter.mpr ⟨hd, by simp [hp]⟩, ?_⟩
  rw [deadlineReqsFor_overdue_eq s.files s.users now d file hf hneg]
  apply List.mem_cons_of_mem
  exact List.mem_map.mpr ⟨p, List.mem_filter.mpr ⟨hpu, by simp [hrole]⟩, rfl⟩

theorem deadlineReqs_overdue_shape (files : List File) (users : List User)
    (now : Int) (deadlines : List Deadline) (r : AlertReq)
    (hr : r ∈ deadlineReqs files users now deadlines)
    (ht : r.type = "deadline_overdue") :
    r.severity = "critical" ∧
    ∃ fid2 file2, r.fileId = some fid2 ∧
      files.find? (fun f => f.fileId == fid2) = some file2 ∧
      r.targetUserId = firstAdvocate file2 := by
  obtain ⟨d2, _, hr2⟩ := List.mem_flatMap.mp hr
  cases hff : files.find? (fun f => f.fileId == d2.fileId) with
  | none =>
    unfold deadlineReqsFor at hr2
    rw [hff] at hr2
    cases hr2
  | some file2 =>
    by_cases hneg : daysUntil now d2.dueDate < 0
    · rw [deadlineReqsFor_overdue_eq files users now d2 file2 hff hneg] at hr2
      rcases List.mem_cons.mp hr2 with rfl | hr3
      · exact ⟨rfl, d2.fileId, file2, rfl, hff, rfl⟩
      · obtain ⟨p, _, rfl⟩ := List.mem_map.mp hr3
        exact absurd ht (show ("escalation" : String) ≠ "deadline_overdue" by decide)
    · by_cases hmem : deadlineWarningDays.contains (daysUntil now d2.dueDate) = true
      · rw [deadlineReqsFor_upcoming_eq files users now d2 file2 hff hneg hmem] at hr2
        rcases List.mem_cons.mp hr2 with rfl | hr3
        · exact absurd ht (show ("deadline_upcoming" : String) ≠ "deadline_overdue" by decide)
        · have hlw := locWarnReqs_type files now d2 file2 r hr3
          rw [ht] at hlw
          exact absurd hlw
            (show ("deadline_overdue" : String) ≠ "file_location_warning" by decide)
      · rw [deadlineReqsFor_none_eq files users now d2 file2 hff hneg hmem] at hr2
        cases hr2

theorem deadlineReqs_escalation_shape (files : List File) (users : List User)
    (now : Int) (deadlines : List Deadline) (r : AlertReq)
    (hr : r ∈ deadlineReqs files users now deadlines)
    (ht : r.type = "escalation") :
    r.severity = "critical" := by
  obtain ⟨d2, _, hr2⟩ := List.mem_flatMap.mp hr
  cases hff : files.find? (fun f => f.fileId == d2.fileId) with
  | none =>
    unfold deadlineReqsFor at hr2
    rw [hff] at hr2
    cases hr2
  | some file2 =>
    by_cases hneg : daysUntil now d2.dueDate < 0
    · rw [deadlineReqsFor_overdue_eq files users now d2 file2 hff hneg] at hr2
      rcases List.mem_cons.mp hr2 with rfl | hr3
      · exact absurd ht (show ("deadline_overdue" : String) ≠ "escalation" by decide)
      · obtain ⟨p, _, rfl⟩ := List.mem_map.mp hr3
        rfl
    · by_cases hmem : deadlineWarningDays.contains (daysUntil now d2.dueDate) = true
      · rw [deadlineReqsFor_upcoming_eq files users now d2 file2 hff hneg hmem] at hr2
        rcases List.mem_cons.mp hr2 with rfl | hr3
        · exact absurd ht (show ("deadline_upcoming" : String) ≠ "escalation" by decide)
        · have hlw := locWarnReqs_type files now d2 file2 r hr3
          rw [ht] at hlw
          exact absurd hlw
            (show ("escalation" : String) ≠ "file_location_warning" by decide)
      · rw [deadlineReqsFor_none_eq files users now d2 file2 hff hneg hmem] at hr2
        cases hr2

/-- C5: one deadline-scan pass from a clean alert store, for a Pending
deadline whose dueDate is in the past (daysUntil < 0) on an existing file,
creates exactly one `deadline_overdue` alert — critical, targeted at the
file's first assigned advocate (null when there is none) — and exactly one
critical `escalation` alert per Partner user. -/
theorem overdue_escalation (s : DBState) (now : Int) (d : Deadline) (file : File)
    (hal : s.alerts = [])
    (hd : d ∈ s.deadlines) (hp : d.status = "Pending")
    (hneg : daysUntil now d.dueDate < 0)
    (hf : getFile s d.fileId = some file) :
    ((checkDeadlineAlerts s now).alerts.countP
        (fun a => a.type == "deadline_overdue" && a.fileId == some d.fileId) = 1) ∧
    (∀ a ∈ (checkDeadlineAlerts s now).alerts, a.type = "deadline_overdue" →
      a.fileId = some d.fileId →
      a.severity = "critical" ∧ a.targetUserId = firstAdvocate file) ∧
    (∀ p ∈ s.users, p.role = "Partner" →
      ((checkDeadlineAlerts s now).alerts.countP
          (fun a => a.type == "escalation" && a.fileId == some d.fileId &&
            a.targetUserId == some p.userId) = 1) ∧
      (∀ a ∈ (checkDeadlineAlerts s now).alerts, a.type = "escalation" →
        a.fileId = some d.fileId → a.targetUserId = some p.userId →
        a.severity = "critical")) := by
  have hfin : s.files.find? (fun f => f.fileId == d.fileId) = some file := hf
  have hout : (checkDeadlineAlerts s now).alerts =
      runAttempts now [] (deadlineReqs s.files s.users now s.deadlines) := by
    show runAttempts now s.alerts _ = _
    rw [hal]
  have hdedup : dedupOK (runAttempts now []
      (deadlineReqs s.files s.users now s.deadlines)) :=
    dedupOK_runAttempts now [] _ List.Pairwise.nil
  have hfrom : ∀ a ∈ runAttempts now []
      (deadlineReqs s.files s.users now s.deadlines),
      ∃ r ∈ deadlineReqs s.files s.users now s.deadlines, a = mkAlert now r := by
    intro a ha
    rcases mem_runAttempts now [] _ a ha with h0 | h1
    · cases h0
    · exact h1
  rw [hout]
  refine ⟨?_, ?_, ?_⟩
  · apply le_antisymm
    · apply countP_le_one_key _ hdedup _
        ("deadline_overdue", some d.fileId, firstAdvocate file)
      intro a ha hPa
      obtain ⟨r, hrR, rfl⟩ := hfrom a ha
      rw [Bool.and_eq_true] at hPa
      obtain ⟨ht, hfid⟩ := hPa
      have ht2 : r.type = "deadline_overdue" := beq_iff_eq.mp ht
      have hfid2 : r.fileId = some d.fileId := beq_iff_eq.mp hfid
      obtain ⟨hsev, fid2, file2, hfid3, hfind2, htgt⟩ :=
        deadlineReqs_overdue_shape s.files s.users now s.deadlines r hrR ht2
      have hfe : fid2 = d.fileId := Option.some.inj (hfid3.symm.trans hfid2)
      subst hfe
      have hfe2 : file2 = file := Option.some.inj (hfind2.symm.trans hfin)
      subst hfe2
      refine ⟨rfl, ?_⟩
      rw [alertKey_mkAlert, ht2, hfid2, htgt]
    · have hcov := runAttempts_covers now []
        (deadlineReqs s.files s.users now s.deadlines) _
        (overdueReq_mem s now d file hd hp hneg hfin)
      refine countP_pos_of_any _ _ _ hcov ?_
      intro a ha hqa
      rw [Bool.and_eq_true] at hqa
      obtain ⟨hnd, hm⟩ := hqa
      unfold alertMatches at hm
      rw [Bool.and_eq_true, Bool.and_eq_true, Bool.and_eq_true] at hm
      obtain ⟨⟨⟨ht, hfid⟩, htgt⟩, hdis⟩ := hm
      rw [Bool.and_eq_true]
      exact ⟨ht, hfid⟩
  · intro a ha ht hfid
    obtain ⟨r, hrR, rfl⟩ := hfrom a ha
    have ht2 : r.type = "deadline_overdue" := ht
    have hfid2 : r.fileId = some d.fileId := hfid
    obtain ⟨hsev, fid2, file2, hfid3, hfind2, htgt⟩ :=
      deadlineReqs_overdue_shape s.files s.users now s.deadlines r hrR ht2
    have hfe : fid2 = d.fileId := Option.some.inj (hfid3.symm.trans hfid2)
    subst hfe
    have hfe2 : file2 = file := Option.some.inj (hfind2.symm.trans hfin)
    subst hfe2
    exact ⟨hsev, htgt⟩
  · intro p hpu hrole
    constructor
    · apply le_antisymm
      · apply countP_le_one_key _ hdedup _
          ("escalation", some d.fileId, some p.userId)
        intro a ha hPa
        obtain ⟨r, hrR, rfl⟩ := hfrom a ha
        rw [Bool.and_eq_true, Bool.and_eq_true] at hPa
        obtain ⟨⟨ht, hfid⟩, htgt⟩ := hPa
        have ht2 : r.type = "escalation" := beq_iff_eq.mp ht
        have hfid2 : r.fileId = some d.fileId := beq_iff_eq.mp hfid
        have htgt2 : r.targetUserId = some p.userId := beq_iff_eq.mp htgt
        refine ⟨rfl, ?_⟩
        rw [alertKey_mkAlert, ht2, hfid2, htgt2]
      · have hcov := runAttempts_covers now []
          (deadlineReqs s.files s.users now s.deadlines) _
          (escReq_mem s now d file hd hp hneg hfin p hpu hrole)
        refine countP_pos_of_any _ _ _ hcov ?_
        intro a ha hqa
        rw [Bool.and_eq_true] at hqa
        obtain ⟨hnd, hm⟩ := hqa
        unfold alertMatches at hm
        rw [Bool.and_eq_true, Bool.and_eq_true, Bool.and_eq_true] at hm
        obtain ⟨⟨⟨ht, hfid⟩, htgt⟩, hdis⟩ := hm
        rw [Bool.and_eq_true, Bool.and_eq_true]
        exact ⟨⟨ht, hfid⟩, htgt⟩
    · intro a ha ht hfid htgt
      obtain ⟨r, hrR, rfl⟩ := hfrom a ha
      exact deadlineReqs_escalation_shape s.files s.users now s.deadlines r hrR ht

/-- Witness for C5: in the overdue-deadline fixture (one file with first
advocate U2, one Partner U3, clean alert store, scan one day after epoch)
the theorem's hypotheses hold and yield the exact counts. -/
theorem overdue_escalation_witness :
    c5State.alerts = [] ∧
    overdueDeadline ∈ c5State.deadlines ∧
    daysUntil 86400000 overdueDeadline.dueDate < 0 ∧
    ((checkDeadlineAlerts c5State 86400000).alerts.countP
        (fun a => a.type == "deadline_overdue" &&
          a.fileId == some overdueDeadline.fileId) = 1) ∧
    ((checkDeadlineAlerts c5State 86400000).alerts.countP
        (fun a => a.type == "escalation" &&
          a.fileId == some overdueDeadline.fileId &&
          a.targetUserId == some uPartner.userId) = 1) := by
  have h := overdue_escalation c5State 86400000 overdueDeadline exFile rfl
    (List.mem_cons_self _ _) rfl (by decide) rfl
  exact ⟨rfl, List.mem_cons_self _ _, by decide, h.1,
    (h.2.2 uPartner (by decide) rfl).1⟩

end CaseTrack
